import Mathlib

/-!
Verification of the project-aria market-data relay.

The development shallowly embeds the relay core of the repository:

* the depth-ladder builder (`utils/helper.ts`: `parseDepthFloats`,
  `sortDepthAsc`, `sortDepthDesc`, `reduceDepthWithTotal`) together with
  `BinanceService.handleDepthMessage`;
* the upstream connector's reconnect / subscribe state machine
  (`services/binanceService.ts`: `connect`, `reconnect`, `subscribe`,
  `unsubscribe`, `resubscribe`);
* the downstream subscription registry
  (`services/websocketServer.ts`: `handleSubscribe`, `handleUnsubscribe`,
  `handleClientDisconnect`).

JavaScript numbers arising from `parseFloat` are modelled as `Option ℚ`,
with `none` playing the role of `NaN`; arithmetic propagates `none` exactly
as IEEE arithmetic propagates `NaN`.  JavaScript `Map`/`Set` objects are
modelled as insertion-ordered association lists / duplicate-free lists.
`Array.prototype.sort(cmp)` (stable, ordered by the comparator as required
by ECMAScript 2019) is modelled as a stable insertion sort ordered by
"`cmp` is non-positive", where a `NaN` comparator result counts as `+0`,
as the ECMAScript `SortCompare` operation prescribes.
-/

namespace Aria

/-! ### JavaScript numbers with NaN -/

/-- A JavaScript `number` as produced by `parseFloat`: `none` is `NaN`. -/
abbrev JNum := Option ℚ

/-- JavaScript `+` on `JNum`: `NaN` propagates. -/
def jadd : JNum → JNum → JNum
  | some x, some y => some (x + y)
  | _, _ => none

/-- JavaScript `-` on `JNum`: `NaN` propagates. -/
def jsub : JNum → JNum → JNum
  | some x, some y => some (x - y)
  | _, _ => none

/-- Comparator result test used by the sort model: the comparator value is
non-positive, a `NaN` comparator value being treated as `+0` (ECMAScript
`SortCompare`). -/
def jnonpos : JNum → Prop
  | some x => x ≤ 0
  | none => True

instance : DecidablePred jnonpos := fun v =>
  match v with
  | some x => inferInstanceAs (Decidable (x ≤ 0))
  | none => inferInstanceAs (Decidable True)

/-- Ordering on `JNum` used in statements: both values are numbers (not
`NaN`) and they compare by `≤` on `ℚ`. -/
def jle : JNum → JNum → Prop
  | some x, some y => x ≤ y
  | _, _ => False

instance : DecidableRel jle := fun a b =>
  match a, b with
  | some x, some y => inferInstanceAs (Decidable (x ≤ y))
  | some _, none => inferInstanceAs (Decidable False)
  | none, _ => inferInstanceAs (Decidable False)

/-! ### `parseFloat`

A model of the JavaScript builtin `parseFloat` sufficient for the decimal
strings the exchange sends: an optional sign, integer digits, and an
optional fraction.  A string with no leading numeric prefix yields `NaN`
(`none`), exactly as `parseFloat` does. -/

/-- Value of a list of decimal digit characters. -/
def digitsVal (l : List Char) : Nat :=
  l.foldl (fun a c => 10 * a + (c.toNat - '0'.toNat)) 0

/-- Model of the JavaScript builtin `parseFloat` (decimal forms only;
`none` models `NaN`). -/
def parseFloat (s : String) : JNum :=
  let cs := s.data
  let neg : Bool := cs.head?.any (fun c => c == '-')
  let body : List Char :=
    if cs.head?.any (fun c => c == '-' || c == '+') then cs.tail else cs
  let intDigits := body.takeWhile Char.isDigit
  let rest := body.dropWhile Char.isDigit
  let fracDigits : List Char :=
    if rest.head?.any (fun c => c == '.') then rest.tail.takeWhile Char.isDigit
    else []
  if intDigits.isEmpty ∧ fracDigits.isEmpty then none
  else
    let v : ℚ := (digitsVal intDigits : ℚ) +
      (digitsVal fracDigits : ℚ) / ((10 : ℚ) ^ fracDigits.length)
    some (if neg then -v else v)

/-! ### Depth helpers (`utils/helper.ts`) -/

/-- A raw wire depth level: textual price and size. -/
abbrev RawLevel := String × String

/-- A parsed depth level: price and size as JavaScript numbers. -/
abbrev PLevel := JNum × JNum

/-- An emitted ladder level: price, size, cumulative total. -/
abbrev TLevel := JNum × JNum × JNum

/-- Source: `([price, quantity]) => [parseFloat(price), parseFloat(quantity)]`. -/
def parseDepthFloats (x : RawLevel) : PLevel :=
  (parseFloat x.1, parseFloat x.2)

/-- Source comparator: `(a, b) => a[0] - b[0]`. -/
def sortDepthAsc (a b : PLevel) : JNum := jsub a.1 b.1

/-- Source comparator: `(a, b) => b[0] - a[0]`. -/
def sortDepthDesc (a b : PLevel) : JNum := jsub b.1 a.1

/-- The ordering induced by a JavaScript sort comparator: `a` may be placed
before `b` when the comparator value is non-positive (`NaN` counting as
`+0`). -/
def compLe (cmp : PLevel → PLevel → JNum) (a b : PLevel) : Prop :=
  jnonpos (cmp a b)

instance (cmp : PLevel → PLevel → JNum) : DecidableRel (compLe cmp) :=
  fun a b => inferInstanceAs (Decidable (jnonpos (cmp a b)))

/-- Model of `Array.prototype.sort(cmp)`: a stable sort ordered by the
comparator. -/
def jsSort (cmp : PLevel → PLevel → JNum) (l : List PLevel) : List PLevel :=
  List.insertionSort (compLe cmp) l

/-- Source reducer:
`(acc, [price, quantity]) => { const total = (acc.length > 0 ? acc[acc.length - 1][2] : 0) + quantity; acc.push([price, quantity, total]); return acc; }`. -/
def reduceDepthWithTotal (acc : List TLevel) (x : PLevel) : List TLevel :=
  let prev : JNum :=
    match acc.getLast? with
    | some t => t.2.2
    | none => some 0
  acc ++ [(x.1, x.2, jadd prev x.2)]

/-- The `.reduce(reduceDepthWithTotal, [])` call of `handleDepthMessage`. -/
def foldDepth (l : List PLevel) : List TLevel :=
  l.foldl reduceDepthWithTotal []

/-- Bid-side pipeline of `handleDepthMessage`:
`.map(parseDepthFloats).sort(sortDepthDesc).reduce(reduceDepthWithTotal, [])`
after parsing. -/
def bidSide (l : List PLevel) : List TLevel :=
  foldDepth (jsSort sortDepthDesc l)

/-- Ask-side pipeline of `handleDepthMessage`:
`.map(parseDepthFloats).sort(sortDepthAsc).reduce(reduceDepthWithTotal, [])`
after parsing. -/
def askSide (l : List PLevel) : List TLevel :=
  foldDepth (jsSort sortDepthAsc l)

/-- The wire depth message as seen by `handleDepthMessage`; `none` fields
model absent-or-wrong-shape JavaScript values (`!message.symbol`,
`!Array.isArray(...)`). -/
structure DepthMsg where
  symbol : Option String
  bids : Option (List RawLevel)
  asks : Option (List RawLevel)
deriving DecidableEq, Repr

/-- The emitted `OrderBook` value. -/
structure OrderBook where
  symbol : String
  bids : List TLevel
  asks : List TLevel
deriving DecidableEq, Repr

/-- Source: `BinanceService.handleDepthMessage`.  Throws (models as
`.error`) when `!message.symbol || !Array.isArray(message.bids) ||
!Array.isArray(message.asks)`; otherwise builds and emits the order book
(an empty string is falsy, hence rejected too). -/
def handleDepthMessage (m : DepthMsg) : Except String OrderBook :=
  match m.symbol, m.bids, m.asks with
  | some s, some bids, some asks =>
    if s = "" then .error "Missing required fields in depth message"
    else .ok
      { symbol := s
        bids := bidSide (bids.map parseDepthFloats)
        asks := askSide (asks.map parseDepthFloats) }
  | _, _, _ => .error "Missing required fields in depth message"

/-! ### Specification views of the emitted ladder -/

/-- Prices carried by an emitted ladder side, in emitted order. -/
def ladderPrices (L : List TLevel) : List JNum := L.map (·.1)

/-- Sizes carried by an emitted ladder side, in emitted order. -/
def ladderSizes (L : List TLevel) : List JNum := L.map (·.2.1)

/-- Cumulative totals carried by an emitted ladder side, in emitted order. -/
def ladderTotals (L : List TLevel) : List JNum := L.map (·.2.2)

/-- The strict left fold of the specification:
`total[0] = 0 + size[0]`, `total[i] = total[i-1] + size[i]`. -/
def cumJ : JNum → List JNum → List JNum
  | _, [] => []
  | t, s :: rest => jadd t s :: cumJ (jadd t s) rest

/-- Cumulative totals of a list of sizes, as the specification describes
them (running sum started at `0`). -/
def cumFromZero (sizes : List JNum) : List JNum := cumJ (some 0) sizes

/-! ### Unrolling the reduce -/

/-- The total carried by the last accumulated level (`0` for an empty
accumulator), as read by `reduceDepthWithTotal`. -/
def lastTot (acc : List TLevel) : JNum :=
  match acc.getLast? with
  | some t => t.2.2
  | none => some 0

/-- Structural unrolling of the `reduce` part of the pipeline. -/
def goT : JNum → List PLevel → List TLevel
  | _, [] => []
  | t, x :: xs => (x.1, x.2, jadd t x.2) :: goT (jadd t x.2) xs

theorem lastTot_concat (acc : List TLevel) (e : TLevel) :
    lastTot (acc ++ [e]) = e.2.2 := by
  simp [lastTot, List.getLast?_concat]

theorem foldl_reduceDepthWithTotal (l : List PLevel) :
    ∀ acc : List TLevel, l.foldl reduceDepthWithTotal acc = acc ++ goT (lastTot acc) l := by
  induction l with
  | nil => intro acc; simp [goT]
  | cons x xs ih =>
    intro acc
    rw [List.foldl_cons, ih]
    show (acc ++ [(x.1, x.2, jadd (lastTot acc) x.2)]) ++
        goT (lastTot (acc ++ [(x.1, x.2, jadd (lastTot acc) x.2)])) xs = _
    rw [lastTot_concat]
    simp [goT]

theorem foldDepth_eq_goT (l : List PLevel) : foldDepth l = goT (some 0) l := by
  simp [foldDepth, foldl_reduceDepthWithTotal, lastTot]

theorem goT_totals (l : List PLevel) :
    ∀ t, ladderTotals (goT t l) = cumJ t (l.map (·.2)) := by
  induction l with
  | nil => intro t; simp [goT, cumJ, ladderTotals]
  | cons x xs ih =>
    intro t
    simp only [ladderTotals] at ih ⊢
    simp [goT, cumJ, ih]

theorem goT_sizes (l : List PLevel) :
    ∀ t, ladderSizes (goT t l) = l.map (·.2) := by
  induction l with
  | nil => intro t; simp [goT, ladderSizes]
  | cons x xs ih =>
    intro t
    simp only [ladderSizes] at ih ⊢
    simp [goT, ih]

theorem goT_prices (l : List PLevel) :
    ∀ t, ladderPrices (goT t l) = l.map (·.1) := by
  induction l with
  | nil => intro t; simp [goT, ladderPrices]
  | cons x xs ih =>
    intro t
    simp only [ladderPrices] at ih ⊢
    simp [goT, ih]

/-! ### The pure (all-parsed) pipeline -/

/-- Injection of an exactly-parsed level into the JavaScript-number level. -/
def liftLevel (pq : ℚ × ℚ) : PLevel := (some pq.1, some pq.2)

/-- Injection of a pure ladder level into the JavaScript-number ladder. -/
def liftT (t : ℚ × ℚ × ℚ) : TLevel := (some t.1, some t.2.1, some t.2.2)

/-- Pure analogue of `goT` on exactly-parsed levels. -/
def goQ : ℚ → List (ℚ × ℚ) → List (ℚ × ℚ × ℚ)
  | _, [] => []
  | t, x :: xs => (x.1, x.2, t + x.2) :: goQ (t + x.2) xs

theorem goT_lift (l : List (ℚ × ℚ)) :
    ∀ t : ℚ, goT (some t) (l.map liftLevel) = (goQ t l).map liftT := by
  induction l with
  | nil => intro t; rfl
  | cons x xs ih => intro t; simp [goT, goQ, liftLevel, liftT, jadd, ih]

theorem goQ_totals_chain (l : List (ℚ × ℚ)) :
    ∀ t : ℚ, (∀ pq ∈ l, 0 ≤ pq.2) →
      List.Chain' (· ≤ ·) (t :: (goQ t l).map (·.2.2)) := by
  induction l with
  | nil => intro t _; simp [goQ]
  | cons x xs ih =>
    intro t h
    simp only [goQ, List.map_cons]
    refine List.chain'_cons.mpr ⟨?_, ?_⟩
    · have hx := h x (by simp)
      linarith
    · exact ih (t + x.2) (fun pq hm => h pq (by simp [hm]))

theorem goQ_last (l : List (ℚ × ℚ)) :
    ∀ t : ℚ, ((goQ t l).map (·.2.2)).getLastD t = t + (l.map (·.2)).sum := by
  induction l with
  | nil => intro t; simp [goQ]
  | cons x xs ih =>
    intro t
    simp only [goQ, List.map_cons, List.getLastD_cons]
    rw [ih (t + x.2)]
    simp
    ring

theorem map_some_getLastD (l : List ℚ) (d : ℚ) :
    (l.map (fun x : ℚ => (some x : JNum))).getLastD (some d) = some (l.getLastD d) := by
  induction l generalizing d with
  | nil => simp
  | cons a l ih => simp only [List.map_cons, List.getLastD_cons, ih]

/-! ### Sorting lemmas -/

/-- Pure ordering used by the bid-side sort (descending by price). -/
def bidLe (a b : ℚ × ℚ) : Prop := b.1 ≤ a.1

/-- Pure ordering used by the ask-side sort (ascending by price). -/
def askLe (a b : ℚ × ℚ) : Prop := a.1 ≤ b.1

instance : DecidableRel bidLe := fun a b => inferInstanceAs (Decidable (b.1 ≤ a.1))

instance : DecidableRel askLe := fun a b => inferInstanceAs (Decidable (a.1 ≤ b.1))

instance : IsTotal (ℚ × ℚ) bidLe := ⟨fun a b => le_total b.1 a.1⟩

instance : IsTrans (ℚ × ℚ) bidLe := ⟨fun _ _ _ h1 h2 => le_trans h2 h1⟩

instance : IsTotal (ℚ × ℚ) askLe := ⟨fun a b => le_total a.1 b.1⟩

instance : IsTrans (ℚ × ℚ) askLe := ⟨fun _ _ _ h1 h2 => le_trans h1 h2⟩

theorem compLe_desc_lift (a b : ℚ × ℚ) :
    compLe sortDepthDesc (liftLevel a) (liftLevel b) ↔ bidLe a b := by
  simp [compLe, sortDepthDesc, jsub, jnonpos, liftLevel, bidLe, sub_nonpos]

theorem compLe_asc_lift (a b : ℚ × ℚ) :
    compLe sortDepthAsc (liftLevel a) (liftLevel b) ↔ askLe a b := by
  simp [compLe, sortDepthAsc, jsub, jnonpos, liftLevel, askLe, sub_nonpos]

theorem orderedInsert_lift (r : ℚ × ℚ → ℚ × ℚ → Prop) (r' : PLevel → PLevel → Prop)
    [DecidableRel r] [DecidableRel r']
    (hr : ∀ a b, r' (liftLevel a) (liftLevel b) ↔ r a b) (x : ℚ × ℚ) :
    ∀ l : List (ℚ × ℚ),
      List.orderedInsert r' (liftLevel x) (l.map liftLevel) =
        (List.orderedInsert r x l).map liftLevel := by
  intro l
  induction l with
  | nil => simp
  | cons y ys ih =>
    simp only [List.map_cons, List.orderedInsert]
    by_cases h : r x y
    · rw [if_pos ((hr x y).mpr h), if_pos h]; simp
    · rw [if_neg (fun hc => h ((hr x y).mp hc)), if_neg h, List.map_cons, ih]

theorem insertionSort_lift (r : ℚ × ℚ → ℚ × ℚ → Prop) (r' : PLevel → PLevel → Prop)
    [DecidableRel r] [DecidableRel r']
    (hr : ∀ a b, r' (liftLevel a) (liftLevel b) ↔ r a b) :
    ∀ l : List (ℚ × ℚ),
      List.insertionSort r' (l.map liftLevel) = (List.insertionSort r l).map liftLevel := by
  intro l
  induction l with
  | nil => simp
  | cons x xs ih =>
    simp only [List.map_cons, List.insertionSort, ih]
    exact orderedInsert_lift r r' hr x _

theorem jsSort_desc_lift (l : List (ℚ × ℚ)) :
    jsSort sortDepthDesc (l.map liftLevel) = (List.insertionSort bidLe l).map liftLevel :=
  insertionSort_lift bidLe (compLe sortDepthDesc) compLe_desc_lift l

theorem jsSort_asc_lift (l : List (ℚ × ℚ)) :
    jsSort sortDepthAsc (l.map liftLevel) = (List.insertionSort askLe l).map liftLevel :=
  insertionSort_lift askLe (compLe sortDepthAsc) compLe_asc_lift l

/-! ### Properties of one emitted side -/

theorem jadd_zero_left (s : JNum) : jadd (some 0) s = s := by
  cases s <;> simp [jadd]

theorem cumFromZero_head (sizes : List JNum) :
    (cumFromZero sizes).head? = sizes.head? := by
  cases sizes with
  | nil => rfl
  | cons s rest => simp [cumFromZero, cumJ, jadd_zero_left]

theorem side_totals_eq_cum (L : List PLevel) :
    ladderTotals (foldDepth L) = cumFromZero (ladderSizes (foldDepth L)) := by
  rw [foldDepth_eq_goT, goT_totals, goT_sizes, cumFromZero]

theorem ladderTotals_map_liftT (M : List (ℚ × ℚ × ℚ)) :
    ladderTotals (M.map liftT) = (M.map (·.2.2)).map (fun x : ℚ => (some x : JNum)) := by
  simp [ladderTotals, liftT, List.map_map]

theorem side_pure_props (cmp : PLevel → PLevel → JNum) (r : ℚ × ℚ → ℚ × ℚ → Prop)
    [DecidableRel r]
    (hcomm : jsSort cmp ∘ (List.map liftLevel) = fun l => (List.insertionSort r l).map liftLevel)
    (l : List (ℚ × ℚ)) (h : ∀ pq ∈ l, 0 ≤ pq.2) :
    List.Chain' jle (ladderTotals (foldDepth (jsSort cmp (l.map liftLevel)))) ∧
    (ladderTotals (foldDepth (jsSort cmp (l.map liftLevel)))).getLastD (some 0) =
      some ((l.map (·.2)).sum) := by
  have hc : jsSort cmp (l.map liftLevel) = (List.insertionSort r l).map liftLevel :=
    congrFun hcomm l
  rw [hc, foldDepth_eq_goT, goT_lift]
  have hM : ∀ pq ∈ List.insertionSort r l, 0 ≤ pq.2 :=
    fun pq hm => h pq ((List.perm_insertionSort r l).subset hm)
  constructor
  · rw [ladderTotals_map_liftT, List.chain'_map]
    have hch := (goQ_totals_chain (List.insertionSort r l) 0 hM).tail
    simp only [List.tail_cons] at hch
    exact List.Chain'.imp (fun a b hab => by simpa [jle] using hab) hch
  · rw [ladderTotals_map_liftT, map_some_getLastD, goQ_last]
    have hperm : ((List.insertionSort r l).map (·.2)).sum = (l.map (·.2)).sum :=
      ((List.perm_insertionSort r l).map (·.2)).sum_eq
    rw [zero_add, hperm]

/-- Conjunction of the cumulative-total properties claimed for the two
emitted sides built from exactly-parsed bid and ask levels: on each side the
totals are the strict left fold of the sizes in emitted (sorted) order with
`total[0] = size[0]`, they are non-decreasing, and the last total is the sum
of the side's sizes. -/
def TotalsSpec (bids asks : List (ℚ × ℚ)) : Prop :=
  (ladderTotals (bidSide (bids.map liftLevel)) =
      cumFromZero (ladderSizes (bidSide (bids.map liftLevel)))) ∧
  ((ladderTotals (bidSide (bids.map liftLevel))).head? =
      (ladderSizes (bidSide (bids.map liftLevel))).head?) ∧
  List.Chain' jle (ladderTotals (bidSide (bids.map liftLevel))) ∧
  ((ladderTotals (bidSide (bids.map liftLevel))).getLastD (some 0) =
      some ((bids.map (·.2)).sum)) ∧
  (ladderTotals (askSide (asks.map liftLevel)) =
      cumFromZero (ladderSizes (askSide (asks.map liftLevel)))) ∧
  ((ladderTotals (askSide (asks.map liftLevel))).head? =
      (ladderSizes (askSide (asks.map liftLevel))).head?) ∧
  List.Chain' jle (ladderTotals (askSide (asks.map liftLevel))) ∧
  ((ladderTotals (askSide (asks.map liftLevel))).getLastD (some 0) =
      some ((asks.map (·.2)).sum))

/-- C4: for every list of bid levels and every list of ask levels with
non-negative sizes, each side of the emitted order book carries cumulative
totals computed as a strict left fold over the sorted side — `total[0] =
size[0]` and `total[i] = total[i-1] + size[i]` — so along each sorted side
the totals are non-decreasing and the last total equals the sum of all
sizes on that side. -/
theorem depth_totals_left_fold (bids asks : List (ℚ × ℚ))
    (hb : ∀ pq ∈ bids, 0 ≤ pq.2) (ha : ∀ pq ∈ asks, 0 ≤ pq.2) :
    TotalsSpec bids asks := by
  have hbp := side_pure_props sortDepthDesc bidLe
    (funext fun l => jsSort_desc_lift l) bids hb
  have hap := side_pure_props sortDepthAsc askLe
    (funext fun l => jsSort_asc_lift l) asks ha
  have hb1 := side_totals_eq_cum (jsSort sortDepthDesc (bids.map liftLevel))
  have ha1 := side_totals_eq_cum (jsSort sortDepthAsc (asks.map liftLevel))
  refine ⟨hb1, ?_, hbp.1, hbp.2, ha1, ?_, hap.1, hap.2⟩
  · rw [show bidSide (bids.map liftLevel) =
        foldDepth (jsSort sortDepthDesc (bids.map liftLevel)) from rfl, hb1]
    exact cumFromZero_head _
  · rw [show askSide (asks.map liftLevel) =
        foldDepth (jsSort sortDepthAsc (asks.map liftLevel)) from rfl, ha1]
    exact cumFromZero_head _

/-- Witness for C4 at the concrete scenario inputs of the specification. -/
theorem depth_totals_left_fold_witness :
    (∀ pq ∈ [((99 : ℚ), (1 : ℚ)), (98, 2)], 0 ≤ pq.2) ∧
    (∀ pq ∈ [((100 : ℚ), (1 : ℚ)), (101, 2)], 0 ≤ pq.2) ∧
    TotalsSpec [(99, 1), (98, 2)] [(100, 1), (101, 2)] :=
  ⟨by decide, by decide,
    depth_totals_left_fold [(99, 1), (98, 2)] [(100, 1), (101, 2)]
      (by decide) (by decide)⟩

/-! ### Concrete `parseFloat` evaluations used by the scenarios -/

theorem parseFloat_abc : parseFloat "abc" = none := by
  simp +decide [parseFloat, digitsVal]

theorem parseFloat_1 : parseFloat "1" = some 1 := by
  simp +decide [parseFloat, digitsVal]

theorem parseFloat_2 : parseFloat "2" = some 2 := by
  simp +decide [parseFloat, digitsVal]

theorem parseFloat_98 : parseFloat "98" = some 98 := by
  simp +decide [parseFloat, digitsVal]

theorem parseFloat_99 : parseFloat "99" = some 99 := by
  simp +decide [parseFloat, digitsVal]

theorem parseFloat_100 : parseFloat "100" = some 100 := by
  simp +decide [parseFloat, digitsVal]

theorem parseFloat_101 : parseFloat "101" = some 101 := by
  simp +decide [parseFloat, digitsVal]

/-! ### Sortedness of the emitted sides -/

theorem bid_prices_sorted (bids : List (ℚ × ℚ)) :
    List.Chain' (fun a b => jle b a) (ladderPrices (bidSide (bids.map liftLevel))) := by
  show List.Chain' _ (ladderPrices (foldDepth (jsSort sortDepthDesc (bids.map liftLevel))))
  rw [jsSort_desc_lift, foldDepth_eq_goT, goT_prices, List.map_map, List.chain'_map]
  exact ((List.sorted_insertionSort bidLe bids).imp
    (fun hab => by simpa [jle, bidLe, liftLevel] using hab)).chain'

theorem ask_prices_sorted (asks : List (ℚ × ℚ)) :
    List.Chain' jle (ladderPrices (askSide (asks.map liftLevel))) := by
  show List.Chain' _ (ladderPrices (foldDepth (jsSort sortDepthAsc (asks.map liftLevel))))
  rw [jsSort_asc_lift, foldDepth_eq_goT, goT_prices, List.map_map, List.chain'_map]
  exact ((List.sorted_insertionSort askLe asks).imp
    (fun hab => by simpa [jle, askLe, liftLevel] using hab)).chain'

/-- C5: for every depth message the builder sorts bid levels in descending
price order and ask levels in ascending price order; in particular, raw
asks `[[100,1],[101,2]]` yield the ladder `[(100,1,1),(101,2,3)]` and raw
bids `[[99,1],[98,2]]` yield `[(99,1,1),(98,2,3)]` (levels arrive on the
wire as decimal strings and are parsed by `parseDepthFloats`). -/
theorem depth_sides_sorted :
    (∀ bids : List (ℚ × ℚ),
      List.Chain' (fun a b => jle b a) (ladderPrices (bidSide (bids.map liftLevel)))) ∧
    (∀ asks : List (ℚ × ℚ),
      List.Chain' jle (ladderPrices (askSide (asks.map liftLevel)))) ∧
    askSide ([("100", "1"), ("101", "2")].map parseDepthFloats) =
      [(some 100, some 1, some 1), (some 101, some 2, some 3)] ∧
    bidSide ([("99", "1"), ("98", "2")].map parseDepthFloats) =
      [(some 99, some 1, some 1), (some 98, some 2, some 3)] ∧
    handleDepthMessage
        ⟨some "BTCUSDT", some [("99", "1"), ("98", "2")], some [("100", "1"), ("101", "2")]⟩ =
      .ok ⟨"BTCUSDT",
        [(some 99, some 1, some 1), (some 98, some 2, some 3)],
        [(some 100, some 1, some 1), (some 101, some 2, some 3)]⟩ := by
  have hask : askSide ([("100", "1"), ("101", "2")].map parseDepthFloats) =
      [(some 100, some 1, some 1), (some 101, some 2, some 3)] := by
    norm_num [askSide, parseDepthFloats, parseFloat_100, parseFloat_101, parseFloat_1,
      parseFloat_2, jsSort, compLe, sortDepthAsc, jsub, jnonpos, foldDepth,
      reduceDepthWithTotal, jadd]
  have hbid : bidSide ([("99", "1"), ("98", "2")].map parseDepthFloats) =
      [(some 99, some 1, some 1), (some 98, some 2, some 3)] := by
    norm_num [bidSide, parseDepthFloats, parseFloat_99, parseFloat_98, parseFloat_1,
      parseFloat_2, jsSort, compLe, sortDepthDesc, jsub, jnonpos, foldDepth,
      reduceDepthWithTotal, jadd]
  refine ⟨bid_prices_sorted, ask_prices_sorted, hask, hbid, ?_⟩
  rw [handleDepthMessage]
  simp only [if_neg (by decide : ¬("BTCUSDT" : String) = "")]
  rw [hask, hbid]

/-- C3 counterexample: the depth message with bid level `["abc", "1"]` has a
price field that fails to parse (`parseFloat` gives `NaN`), yet
`handleDepthMessage` does not reject it — it emits an order book whose bid
ladder contains the unparsed (`NaN`-priced) level. -/
theorem depth_nan_emitted_counterexample :
    parseFloat "abc" = none ∧
    handleDepthMessage ⟨some "BTCUSDT", some [("abc", "1")], some []⟩ =
      .ok ⟨"BTCUSDT", [(none, some 1, some 1)], []⟩ := by
  refine ⟨parseFloat_abc, ?_⟩
  rw [handleDepthMessage]
  simp only [if_neg (by decide : ¬("BTCUSDT" : String) = "")]
  norm_num [bidSide, askSide, parseDepthFloats, parseFloat_abc, parseFloat_1, jsSort,
    compLe, sortDepthDesc, sortDepthAsc, jsub, jnonpos, foldDepth,
    reduceDepthWithTotal, jadd]

/-- C3 amended: a price or size field that fails to parse is NOT an error —
the ladder is built and emitted with `NaN` in place of the unparsed value;
the only rejection of a whole depth message is a missing/empty `symbol`
field or a missing/non-array `bids` or `asks` field. -/
theorem depth_parse_failure_amended :
    (∀ (s : String) (bids asks : List RawLevel), s ≠ "" →
      handleDepthMessage ⟨some s, some bids, some asks⟩ =
        .ok ⟨s, bidSide (bids.map parseDepthFloats), askSide (asks.map parseDepthFloats)⟩) ∧
    (∀ m : DepthMsg,
      (m.symbol = none ∨ m.symbol = some "" ∨ m.bids = none ∨ m.asks = none) →
      handleDepthMessage m = .error "Missing required fields in depth message") := by
  constructor
  · intro s bids asks hs
    rw [handleDepthMessage]
    simp [hs]
  · rintro ⟨sym, b, a⟩ h
    rcases sym with _ | sym <;> rcases b with _ | b <;> rcases a with _ | a <;>
      simp_all [handleDepthMessage]

/-- Witness for the amended C3 statement at a concrete message. -/
theorem depth_parse_failure_amended_witness :
    ("BTCUSDT" : String) ≠ "" ∧
    handleDepthMessage ⟨some "BTCUSDT", some [("abc", "1")], some []⟩ =
      .ok ⟨"BTCUSDT", bidSide ([("abc", "1")].map parseDepthFloats),
        askSide (([] : List RawLevel).map parseDepthFloats)⟩ :=
  ⟨by decide, depth_parse_failure_amended.1 "BTCUSDT" [("abc", "1")] [] (by decide)⟩

/-! ### Upstream connector state machine (`services/binanceService.ts`)

The embedded state tracks exactly what the claims are about: whether the
transport is open (`ws && ws.readyState === OPEN`), the private fields
`reconnectAttempts`, `activeSymbols` and `subscriptionId`, the list of
control frames sent upstream, whether a reconnect timer is currently
scheduled (`pending`, carrying its delay in milliseconds), and the error
events emitted so far.  The handlers `open`, `close` and the firing of a
scheduled reconnect timer (which calls `connect()`, giving a new
still-connecting socket) drive the machine. -/

/-- A JSON control frame sent to the upstream exchange. -/
structure Frame where
  method : String
  params : List String
  id : Nat
deriving DecidableEq, Repr

/-- Builds a control frame. -/
def mkFrame (method : String) (params : List String) (id : Nat) : Frame :=
  { method := method, params := params, id := id }

/-- Source constant: `maxReconnectAttempts = 5`. -/
def maxReconnectAttempts : Nat := 5

/-- Source constant: `reconnectDelay = 1000`. -/
def reconnectDelay : Nat := 1000

/-- Source delay `this.reconnectDelay * Math.pow(2, this.reconnectAttempts - 1)`,
where the argument is the post-increment counter value. -/
def backoffDelay (attempt : Nat) : Nat := reconnectDelay * 2 ^ (attempt - 1)

/-- Modelled from the spec: the `streams` constant of `utils/stream.ts` is
not among the sources; the spec names the three channels trade,
depth-snapshot (`depth20`) and ticker. -/
def streams : List String := ["trade", "depth20", "ticker"]

/-- Connector state (fields of `BinanceService` plus the sent-frame log,
the scheduled-reconnect timer and the emitted error events). -/
structure BState where
  isOpen : Bool
  reconnectAttempts : Nat
  activeSymbols : List String
  subscriptionId : Nat
  sent : List Frame
  pending : Option Nat
  errors : List String
deriving DecidableEq, Repr

/-- State of a freshly constructed service right after the initial
`connect()` call (socket still connecting). -/
def initB : BState :=
  { isOpen := false, reconnectAttempts := 0, activeSymbols := [],
    subscriptionId := 1, sent := [], pending := none, errors := [] }

/-- JavaScript `Set.prototype.add` on the insertion-ordered symbol set. -/
def addSym (l : List String) (s : String) : List String :=
  if s ∈ l then l else l ++ [s]

/-- Source: `BinanceService.subscribe`.  Returns the new state together
with `some errorMessage` when the call throws/rejects (`WebSocket not
connected` when the transport is not open). -/
def subscribeB (st : BState) (symbol : String) (strms : List String) :
    BState × Option String :=
  if st.isOpen then
    ({ st with
        sent := st.sent ++
          [mkFrame "SUBSCRIBE" (strms.map (fun c => symbol.toLower ++ "@" ++ c))
            st.subscriptionId],
        subscriptionId := st.subscriptionId + 1,
        activeSymbols := addSym st.activeSymbols symbol }, none)
  else (st, some "WebSocket not connected")

/-- Source: `BinanceService.unsubscribe`.  A no-op when the transport is
not open. -/
def unsubscribeB (st : BState) (symbol : String) (strms : List String) : BState :=
  if st.isOpen then
    { st with
        sent := st.sent ++
          [mkFrame "UNSUBSCRIBE" (strms.map (fun c => symbol.toLower ++ "@" ++ c))
            st.subscriptionId],
        subscriptionId := st.subscriptionId + 1,
        activeSymbols := st.activeSymbols.filter (· ≠ symbol) }
  else st

/-- The iteration of `resubscribe` over a list of symbols. -/
def resubGo (syms : List String) (st : BState) : BState :=
  syms.foldl (fun s sym => (subscribeB s sym streams).1) st

/-- Source: `BinanceService.resubscribe` — one `subscribe` call per symbol
currently in `activeSymbols`. -/
def resubscribeB (st : BState) : BState :=
  resubGo st.activeSymbols st

/-- The `open` handler: reset the retry counter to `0` and resubscribe. -/
def onOpenB (st : BState) : BState :=
  resubscribeB { st with isOpen := true, reconnectAttempts := 0 }

/-- Source: `BinanceService.reconnect`.  At or above the attempt cap it
emits an error and schedules nothing; below the cap it increments the
counter and schedules a reconnect with exponential delay. -/
def reconnectB (st : BState) : BState :=
  if st.reconnectAttempts ≥ maxReconnectAttempts then
    { st with errors := st.errors ++ ["Failed to reconnect to market data service"] }
  else
    { st with
        reconnectAttempts := st.reconnectAttempts + 1,
        pending := some (backoffDelay (st.reconnectAttempts + 1)) }

/-- The `close` handler: `cleanup()` (a no-op in the source) followed by
`reconnect()`; the transport is no longer open. -/
def onCloseB (st : BState) : BState :=
  reconnectB { st with isOpen := false }

/-- A scheduled reconnect timer fires: `connect()` creates a fresh,
still-connecting socket. -/
def onFireB (st : BState) : BState := { st with pending := none }

/-- Transport events driving the connector. -/
inductive BEv
  | opened
  | closed
  | fire
deriving DecidableEq, Repr

/-- One step of the connector state machine. -/
def stepB (st : BState) : BEv → BState
  | .opened => onOpenB st
  | .closed => onCloseB st
  | .fire => onFireB st

/-- Run of the connector from the freshly connected service. -/
def runB (evs : List BEv) : BState := evs.foldl stepB initB

/-- Five consecutive connection failures, each scheduled reconnect having
fired: a state reachable in normal operation. -/
def fiveFailTrace : List BEv :=
  [.closed, .fire, .closed, .fire, .closed, .fire, .closed, .fire, .closed, .fire]

/-- The same run followed by one more transport close. -/
def sixFailTrace : List BEv := fiveFailTrace ++ [.closed]

/-! ### Resubscribe-on-open lemmas -/

/-- The SUBSCRIBE frames flushed by `resubscribe` for the recorded symbols,
starting from the given subscription id. -/
def flushFrames (id : Nat) : List String → List Frame
  | [] => []
  | sym :: rest =>
    mkFrame "SUBSCRIBE" (streams.map (fun c => sym.toLower ++ "@" ++ c)) id ::
      flushFrames (id + 1) rest

theorem addSym_mem (l : List String) (s : String) (h : s ∈ l) : addSym l s = l := by
  simp [addSym, h]

theorem resubGo_props (syms : List String) :
    ∀ st : BState, st.isOpen = true → (∀ sym ∈ syms, sym ∈ st.activeSymbols) →
      (resubGo syms st).sent = st.sent ++ flushFrames st.subscriptionId syms ∧
      (resubGo syms st).activeSymbols = st.activeSymbols ∧
      (resubGo syms st).isOpen = true ∧
      (resubGo syms st).reconnectAttempts = st.reconnectAttempts ∧
      (resubGo syms st).pending = st.pending := by
  induction syms with
  | nil => intro st h1 _; exact ⟨by simp [resubGo, flushFrames], rfl, h1, rfl, rfl⟩
  | cons sym rest ih =>
    intro st h1 h2
    have hmem : sym ∈ st.activeSymbols := h2 sym (by simp)
    have hstep : (subscribeB st sym streams).1 =
        { st with
            sent := st.sent ++
              [mkFrame "SUBSCRIBE" (streams.map (fun c => sym.toLower ++ "@" ++ c))
                st.subscriptionId],
            subscriptionId := st.subscriptionId + 1 } := by
      simp [subscribeB, h1, addSym_mem _ _ hmem]
    have hrw : resubGo (sym :: rest) st = resubGo rest (subscribeB st sym streams).1 := by
      simp [resubGo]
    rw [hrw, hstep]
    have hres := ih
      { st with
          sent := st.sent ++
            [mkFrame "SUBSCRIBE" (streams.map (fun c => sym.toLower ++ "@" ++ c))
              st.subscriptionId],
          subscriptionId := st.subscriptionId + 1 }
      h1 (fun s hs => h2 s (by simp [hs]))
    refine ⟨?_, hres.2.1, hres.2.2.1, hres.2.2.2.1, hres.2.2.2.2⟩
    rw [hres.1]
    simp [flushFrames]

theorem onOpenB_props (st : BState) :
    (onOpenB st).sent = st.sent ++ flushFrames st.subscriptionId st.activeSymbols ∧
    (onOpenB st).reconnectAttempts = 0 ∧
    (onOpenB st).isOpen = true ∧
    (onOpenB st).activeSymbols = st.activeSymbols := by
  have h := resubGo_props st.activeSymbols
    { st with isOpen := true, reconnectAttempts := 0 } rfl (fun _ hm => hm)
  exact ⟨h.1, h.2.2.2.1, h.2.2.1, h.2.1⟩

/-! ### C1: the reconnect attempt cap -/

/-- C1 counterexample: after five failed connection attempts — a state
reachable in normal operation — one more transport close schedules NO
reconnect: the attempt counter has hit `maxReconnectAttempts = 5`, the
close handler only emits a failure error, and the connector stays
disconnected with no pending timer, a terminal state. -/
theorem reconnect_terminal_counterexample :
    (runB fiveFailTrace).reconnectAttempts = 5 ∧
    runB sixFailTrace = onCloseB (runB fiveFailTrace) ∧
    (runB sixFailTrace).pending = none ∧
    (runB sixFailTrace).isOpen = false ∧
    (runB sixFailTrace).errors = ["Failed to reconnect to market data service"] := by
  decide

/-- C1 amended: a transport close leads to another scheduled reconnect only
while the attempt counter is below `maxReconnectAttempts = 5`; once the
counter has reached the cap, the close handler emits a failure error and
schedules nothing — a terminal state reachable after five consecutive
failures. -/
theorem reconnect_capped_amended :
    (∀ st : BState, st.reconnectAttempts < maxReconnectAttempts →
      (onCloseB st).pending = some (backoffDelay (st.reconnectAttempts + 1)) ∧
      (onCloseB st).reconnectAttempts = st.reconnectAttempts + 1) ∧
    (∀ st : BState, maxReconnectAttempts ≤ st.reconnectAttempts →
      (onCloseB st).pending = st.pending ∧
      (onCloseB st).reconnectAttempts = st.reconnectAttempts ∧
      (onCloseB st).errors = st.errors ++ ["Failed to reconnect to market data service"] ∧
      (onCloseB st).sent = st.sent) := by
  constructor
  · intro st h
    have hn : ¬ st.reconnectAttempts ≥ maxReconnectAttempts := Nat.not_le.mpr h
    simp [onCloseB, reconnectB, hn]
  · intro st h
    simp [onCloseB, reconnectB, h]

/-- Witness for the amended C1 statement at the freshly connected state. -/
theorem reconnect_capped_amended_witness :
    initB.reconnectAttempts < maxReconnectAttempts ∧
    ((onCloseB initB).pending = some (backoffDelay (initB.reconnectAttempts + 1)) ∧
      (onCloseB initB).reconnectAttempts = initB.reconnectAttempts + 1) :=
  ⟨by decide, reconnect_capped_amended.1 initB (by decide)⟩

/-! ### C7: backoff shape -/

/-- C7 counterexample: the attempt counter does NOT increment on every
failed/closed connection — at the reachable state with five failed attempts
a further close leaves the counter at 5. -/
theorem backoff_counter_stuck_counterexample :
    (runB fiveFailTrace).reconnectAttempts = 5 ∧
    (onCloseB (runB fiveFailTrace)).reconnectAttempts = 5 := by
  decide

/-- C7 amended: while below the 5-attempt cap, each close increments the
counter and schedules delay `reconnectDelay * 2^(attempt-1)` (there is no
separate delay cap and no jitter); this delay is monotone non-decreasing in
the attempt number; the counter resets to 0 on a successful open, so the
close following an open schedules the base delay again.  At the cap the
counter stops incrementing. -/
theorem backoff_amended :
    (∀ st : BState, st.reconnectAttempts < maxReconnectAttempts →
      (onCloseB st).reconnectAttempts = st.reconnectAttempts + 1 ∧
      (onCloseB st).pending = some (backoffDelay (st.reconnectAttempts + 1))) ∧
    (∀ m n : Nat, m ≤ n → backoffDelay m ≤ backoffDelay n) ∧
    (∀ st : BState, (onOpenB st).reconnectAttempts = 0) ∧
    (∀ st : BState, (onCloseB (onOpenB st)).pending = some reconnectDelay) ∧
    (∀ st : BState, maxReconnectAttempts ≤ st.reconnectAttempts →
      (onCloseB st).reconnectAttempts = st.reconnectAttempts) := by
  refine ⟨?_, ?_, fun st => (onOpenB_props st).2.1, ?_, ?_⟩
  · intro st h
    have hn : ¬ st.reconnectAttempts ≥ maxReconnectAttempts := Nat.not_le.mpr h
    simp [onCloseB, reconnectB, hn]
  · intro m n h
    exact Nat.mul_le_mul_left reconnectDelay
      (Nat.pow_le_pow_right (by norm_num) (Nat.sub_le_sub_right h 1))
  · intro st
    have h0 := (onOpenB_props st).2.1
    simp [onCloseB, reconnectB, h0, maxReconnectAttempts, backoffDelay, reconnectDelay]
  · intro st h
    simp [onCloseB, reconnectB, h]

/-- Witness for the amended C7 statement at the freshly connected state. -/
theorem backoff_amended_witness :
    initB.reconnectAttempts < maxReconnectAttempts ∧
    ((onCloseB initB).reconnectAttempts = initB.reconnectAttempts + 1 ∧
      (onCloseB initB).pending = some (backoffDelay (initB.reconnectAttempts + 1))) :=
  ⟨by decide, backoff_amended.1 initB (by decide)⟩

/-! ### C2: subscribe while disconnected -/

/-- C2 counterexample: a subscribe while the connector is not connected
FAILS with an error and is NOT remembered — the state is unchanged and the
next successful open flushes no SUBSCRIBE frame. -/
theorem subscribe_disconnected_counterexample :
    (subscribeB initB "BTCUSDT" streams).2 = some "WebSocket not connected" ∧
    (subscribeB initB "BTCUSDT" streams).1 = initB ∧
    (onOpenB (subscribeB initB "BTCUSDT" streams).1).sent = [] := by
  decide

/-- C2 amended: a subscribe call while not connected throws (`WebSocket not
connected`) and leaves the state unchanged — nothing is remembered; a
subscribe while connected sends its SUBSCRIBE control frame immediately and
records the symbol in `activeSymbols`; a successful open re-flushes exactly
one SUBSCRIBE frame per recorded symbol (resubscribe-on-reconnect applies
only to symbols subscribed while connected earlier). -/
theorem subscribe_remembered_amended :
    (∀ (st : BState) (sym : String) (strms : List String), st.isOpen = false →
      subscribeB st sym strms = (st, some "WebSocket not connected")) ∧
    (∀ (st : BState) (sym : String) (strms : List String), st.isOpen = true →
      (subscribeB st sym strms).2 = none ∧
      (subscribeB st sym strms).1.sent = st.sent ++
        [mkFrame "SUBSCRIBE" (strms.map (fun c => sym.toLower ++ "@" ++ c))
          st.subscriptionId] ∧
      (subscribeB st sym strms).1.activeSymbols = addSym st.activeSymbols sym) ∧
    (∀ st : BState,
      (onOpenB st).sent = st.sent ++ flushFrames st.subscriptionId st.activeSymbols) := by
  refine ⟨?_, ?_, fun st => (onOpenB_props st).1⟩
  · intro st sym strms h
    simp [subscribeB, h]
  · intro st sym strms h
    simp [subscribeB, h]

/-- Witness for the amended C2 statement at the freshly connected state. -/
theorem subscribe_remembered_amended_witness :
    initB.isOpen = false ∧
    subscribeB initB "BTCUSDT" streams = (initB, some "WebSocket not connected") :=
  ⟨rfl, subscribe_remembered_amended.1 initB "BTCUSDT" streams rfl⟩

/-! ### Downstream subscription registry (`services/websocketServer.ts`)

JavaScript `Map`s are embedded as insertion-ordered association lists with
unique keys (`aset` replaces in place, `adel` removes the key), and
JavaScript `Set`s as duplicate-free insertion-ordered lists.  Each registry
operation returns the calls made to `binanceService.subscribe` /
`binanceService.unsubscribe` as a list of `UpFrame`s. -/

/-- Downstream client identity (the `ws` object of one connection). -/
abbrev Client := Nat

/-- An upstream call the registry makes on the connector. -/
inductive UpFrame
  | sub (symbol : String)
  | unsub (symbol : String)
deriving DecidableEq, Repr

/-- JavaScript `Map.prototype.get`. -/
def alookup {K V : Type} [DecidableEq K] : List (K × V) → K → Option V
  | [], _ => none
  | (k, v) :: t, q => if q = k then some v else alookup t q

/-- JavaScript `Map.prototype.set`: replace in place, else append. -/
def aset {K V : Type} [DecidableEq K] : List (K × V) → K → V → List (K × V)
  | [], k, v => [(k, v)]
  | (k1, v1) :: t, k, v => if k = k1 then (k, v) :: t else (k1, v1) :: aset t k v

/-- JavaScript `Map.prototype.delete` (keys are unique; the recursion
removes every occurrence, which coincides on well-formed maps). -/
def adel {K V : Type} [DecidableEq K] : List (K × V) → K → List (K × V)
  | [], _ => []
  | (k1, v1) :: t, k => if k1 = k then adel t k else (k1, v1) :: adel t k

/-- JavaScript `Set.prototype.add`. -/
def addU {A : Type} [DecidableEq A] (l : List A) (x : A) : List A :=
  if x ∈ l then l else l ++ [x]

/-- JavaScript `Set.prototype.delete` (elements are unique; the recursion
removes every occurrence, which coincides on well-formed sets). -/
def delU {A : Type} [DecidableEq A] : List A → A → List A
  | [], _ => []
  | y :: t, x => if y = x then delU t x else y :: delU t x

/-! #### Association-list lemmas -/

theorem alookup_aset_self {K V : Type} [DecidableEq K] (m : List (K × V)) (k : K) (v : V) :
    alookup (aset m k v) k = some v := by
  induction m with
  | nil => simp [aset, alookup]
  | cons p t ih =>
    by_cases h : k = p.1
    · simp [aset, h, alookup]
    · simp [aset, h, alookup, ih]

theorem alookup_aset_ne {K V : Type} [DecidableEq K] (m : List (K × V)) (k k' : K) (v : V)
    (h : k' ≠ k) : alookup (aset m k v) k' = alookup m k' := by
  induction m with
  | nil => simp [aset, alookup, h]
  | cons p t ih =>
    by_cases h1 : k = p.1
    · subst h1
      simp [aset, alookup, h]
    · by_cases h2 : k' = p.1
      · simp [aset, h1, alookup, h2]
      · simp [aset, h1, alookup, h2, ih]

theorem aset_lookup_self {K V : Type} [DecidableEq K] (m : List (K × V)) (k : K) (v : V)
    (h : alookup m k = some v) : aset m k v = m := by
  induction m with
  | nil => simp [alookup] at h
  | cons p t ih =>
    by_cases h1 : k = p.1
    · rw [alookup] at h
      rw [if_pos h1] at h
      obtain ⟨rfl⟩ := Option.some_injective _ h
      simp [aset, h1]
    · rw [alookup] at h
      rw [if_neg h1] at h
      simp [aset, h1, ih h]

theorem alookup_mem {K V : Type} [DecidableEq K] (m : List (K × V)) (k : K) (v : V)
    (h : alookup m k = some v) : (k, v) ∈ m := by
  induction m with
  | nil => simp [alookup] at h
  | cons p t ih =>
    by_cases h1 : k = p.1
    · rw [alookup, if_pos h1] at h
      obtain ⟨rfl⟩ := Option.some_injective _ h
      subst h1
      exact List.mem_cons.mpr (Or.inl rfl)
    · rw [alookup, if_neg h1] at h
      exact List.mem_cons_of_mem _ (ih h)

theorem mem_aset {K V : Type} [DecidableEq K] (m : List (K × V)) (k : K) (v : V)
    (p : K × V) (h : p ∈ aset m k v) : p = (k, v) ∨ p ∈ m := by
  induction m with
  | nil => simp [aset] at h; simp [h]
  | cons q t ih =>
    by_cases h1 : k = q.1
    · rw [aset, if_pos h1] at h
      rcases List.mem_cons.mp h with h2 | h2
      · exact Or.inl h2
      · exact Or.inr (List.mem_cons_of_mem _ h2)
    · rw [aset, if_neg h1] at h
      rcases List.mem_cons.mp h with h2 | h2
      · exact Or.inr (by simp [h2])
      · rcases ih h2 with h3 | h3
        · exact Or.inl h3
        · exact Or.inr (List.mem_cons_of_mem _ h3)

theorem alookup_adel_self {K V : Type} [DecidableEq K] (m : List (K × V)) (k : K) :
    alookup (adel m k) k = none := by
  induction m with
  | nil => rfl
  | cons p t ih =>
    by_cases h : p.1 = k
    · simpa [adel, h] using ih
    · simpa [adel, alookup, h, Ne.symm h] using ih

theorem alookup_adel_ne {K V : Type} [DecidableEq K] (m : List (K × V)) (k k' : K)
    (h : k' ≠ k) : alookup (adel m k) k' = alookup m k' := by
  induction m with
  | nil => rfl
  | cons p t ih =>
    by_cases h1 : p.1 = k
    · rw [adel, if_pos h1, ih, alookup, if_neg (by rw [h1]; exact h)]
    · rw [adel, if_neg h1]
      by_cases h2 : k' = p.1
      · simp [alookup, h2]
      · simp [alookup, h2, ih]

theorem adel_lookup_none {K V : Type} [DecidableEq K] (m : List (K × V)) (k : K)
    (h : alookup m k = none) : adel m k = m := by
  induction m with
  | nil => rfl
  | cons p t ih =>
    rw [alookup] at h
    by_cases h1 : k = p.1
    · rw [if_pos h1] at h; exact absurd h (by simp)
    · rw [if_neg h1] at h
      rw [adel, if_neg (fun hc => h1 (by rw [hc])), ih h]

theorem mem_adel {K V : Type} [DecidableEq K] (m : List (K × V)) (k : K)
    (p : K × V) (h : p ∈ adel m k) : p ∈ m := by
  induction m with
  | nil => simp [adel] at h
  | cons q t ih =>
    by_cases h1 : q.1 = k
    · rw [adel, if_pos h1] at h
      exact List.mem_cons_of_mem _ (ih h)
    · rw [adel, if_neg h1] at h
      rcases List.mem_cons.mp h with h2 | h2
      · exact List.mem_cons.mpr (Or.inl h2)
      · exact List.mem_cons_of_mem _ (ih h2)

theorem adel_idem {K V : Type} [DecidableEq K] (m : List (K × V)) (k : K) :
    adel (adel m k) k = adel m k := by
  induction m with
  | nil => rfl
  | cons p t ih =>
    by_cases h : p.1 = k
    · rw [adel, if_pos h, ih]
    · rw [adel, if_neg h, adel, if_neg h, ih]

theorem delU_not_mem {A : Type} [DecidableEq A] (l : List A) (x : A) (h : x ∉ l) :
    delU l x = l := by
  induction l with
  | nil => rfl
  | cons y t ih =>
    rw [delU, if_neg (fun hc => h (by simp [hc])), ih (fun hc => h (by simp [hc]))]

theorem delU_idem {A : Type} [DecidableEq A] (l : List A) (x : A) :
    delU (delU l x) x = delU l x := by
  induction l with
  | nil => rfl
  | cons y t ih =>
    by_cases h : y = x
    · rw [delU, if_pos h, ih]
    · rw [delU, if_neg h, delU, if_neg h, ih]

theorem addU_ne_nil {A : Type} [DecidableEq A] (l : List A) (x : A) :
    addU l x ≠ [] := by
  rw [addU]
  split
  · intro hc
    subst hc
    simp_all
  · simp

theorem aset_aset {K V : Type} [DecidableEq K] (m : List (K × V)) (k : K) (v v' : V) :
    aset (aset m k v) k v' = aset m k v' := by
  induction m with
  | nil => simp [aset]
  | cons p t ih =>
    by_cases h : k = p.1
    · simp [aset, h]
    · simp [aset, h, ih]

theorem adel_aset {K V : Type} [DecidableEq K] (m : List (K × V)) (k : K) (v : V) :
    adel (aset m k v) k = adel m k := by
  induction m with
  | nil => simp [aset, adel]
  | cons p t ih =>
    by_cases h : k = p.1
    · rw [aset, if_pos h, adel, if_pos rfl, adel, if_pos h.symm]
    · rw [aset, if_neg h, adel, if_neg (fun hc => h hc.symm), ih, adel,
        if_neg (fun hc => h hc.symm)]

/-! #### Registry state and operations -/

/-- Registry state: the two maps of `WebSocketServer`
(`subscriptions : Map<string, Set<WebSocket>>` and
`clientSubscriptions : Map<WebSocket, Set<string>>`). -/
structure Registry where
  subscriptions : List (String × List Client)
  clientSubscriptions : List (Client × List String)
deriving DecidableEq, Repr

/-- The registry of a freshly started server. -/
def emptyReg : Registry := { subscriptions := [], clientSubscriptions := [] }

/-- Source: the `connection` handler —
`this.clientSubscriptions.set(ws, new Set())`. -/
def connectClient (R : Registry) (c : Client) : Registry × List UpFrame :=
  ({ R with clientSubscriptions := aset R.clientSubscriptions c [] }, [])

/-- Source: `WebSocketServer.handleSubscribe`.  A falsy (empty) symbol gets
an error response and changes nothing; a symbol with no map entry gets a
fresh entry and one upstream subscribe call; the client is then added to
the symbol entry and the symbol to the client entry. -/
def handleSubscribe (R : Registry) (c : Client) (s : String) :
    Registry × List UpFrame :=
  if s = "" then (R, [])
  else
    let tmp : List (String × List Client) × List UpFrame :=
      match alookup R.subscriptions s with
      | none => (aset R.subscriptions s [], [UpFrame.sub s])
      | some _ => (R.subscriptions, [])
    let subs2 : List (String × List Client) :=
      match alookup tmp.1 s with
      | some cs => aset tmp.1 s (addU cs c)
      | none => tmp.1
    let cls : List (Client × List String) :=
      match alookup R.clientSubscriptions c with
      | some ss => aset R.clientSubscriptions c (addU ss s)
      | none => R.clientSubscriptions
    ({ subscriptions := subs2, clientSubscriptions := cls }, tmp.2)

/-- Source: `WebSocketServer.handleUnsubscribe`.  A falsy symbol returns at
once; otherwise the client is removed from the symbol entry, and when the
entry just became empty it is deleted and one upstream unsubscribe call is
made; finally the symbol is removed from the client entry. -/
def handleUnsubscribe (R : Registry) (c : Client) (s : String) :
    Registry × List UpFrame :=
  if s = "" then (R, [])
  else
    let subs1 : List (String × List Client) :=
      match alookup R.subscriptions s with
      | some cs => aset R.subscriptions s (delU cs c)
      | none => R.subscriptions
    let tmp : List (String × List Client) × List UpFrame :=
      match alookup subs1 s with
      | some cs => if cs.length = 0 then (adel subs1 s, [UpFrame.unsub s])
                   else (subs1, [])
      | none => (subs1, [])
    let cls : List (Client × List String) :=
      match alookup R.clientSubscriptions c with
      | some ss => aset R.clientSubscriptions c (delU ss s)
      | none => R.clientSubscriptions
    ({ subscriptions := tmp.1, clientSubscriptions := cls }, tmp.2)

/-- One iteration of the disconnect loop of `handleClientDisconnect` for
one symbol of the disconnecting client. -/
def discStep (c : Client) (acc : List (String × List Client) × List UpFrame)
    (s : String) : List (String × List Client) × List UpFrame :=
  let subs1 : List (String × List Client) :=
    match alookup acc.1 s with
    | some cs => aset acc.1 s (delU cs c)
    | none => acc.1
  match alookup subs1 s with
  | some cs => if cs.length = 0 then (adel subs1 s, acc.2 ++ [UpFrame.unsub s])
               else (subs1, acc.2)
  | none => (subs1, acc.2)

/-- Source: `WebSocketServer.handleClientDisconnect` — iterate the
client's symbol set, then delete the client entry.  Idempotent by design
(safe to call from both the error and the close handlers). -/
def handleClientDisconnect (R : Registry) (c : Client) : Registry × List UpFrame :=
  match alookup R.clientSubscriptions c with
  | some ss =>
    let out := ss.foldl (discStep c) (R.subscriptions, [])
    ({ subscriptions := out.1, clientSubscriptions := adel R.clientSubscriptions c },
      out.2)
  | none => ({ R with clientSubscriptions := adel R.clientSubscriptions c }, [])

/-- Downstream events driving the registry. -/
inductive REv
  | connect (c : Client)
  | sub (c : Client) (s : String)
  | unsub (c : Client) (s : String)
  | disc (c : Client)
deriving DecidableEq, Repr

/-- One step of the registry: the new registry and the upstream calls the
step makes. -/
def stepR (R : Registry) : REv → Registry × List UpFrame
  | .connect c => connectClient R c
  | .sub c s => handleSubscribe R c s
  | .unsub c s => handleUnsubscribe R c s
  | .disc c => handleClientDisconnect R c

/-- Run of the registry from the fresh server, accumulating all upstream
calls in order. -/
def runR (evs : List REv) : Registry × List UpFrame :=
  evs.foldl (fun acc e => ((stepR acc.1 e).1, acc.2 ++ (stepR acc.1 e).2)) (emptyReg, [])

/-- Distinct-client count of a symbol (0 when the symbol has no entry). -/
def symCount (R : Registry) (s : String) : Nat :=
  ((alookup R.subscriptions s).getD []).length

/-- Every subscription entry holds at least one client; this holds in every
reachable registry state. -/
def EntriesNonempty (R : Registry) : Prop :=
  ∀ p ∈ R.subscriptions, p.2 ≠ []

instance (R : Registry) : Decidable (EntriesNonempty R) := by
  unfold EntriesNonempty
  infer_instance

/-! ### C6: reference-counted upstream traffic

`FrameBalance` states that, for every symbol, the number of upstream
subscribe calls made so far exceeds the number of unsubscribe calls by
exactly one when the symbol currently has an entry and zero otherwise — so
at most one upstream subscription per symbol is ever active, a SUBSCRIBE is
made exactly on the zero-to-nonzero transitions of the distinct-client
count, and an UNSUBSCRIBE exactly on the nonzero-to-zero transitions. -/

/-- Number of upstream subscribe calls for a symbol in a call log. -/
def countSub (F : List UpFrame) (s : String) : Nat :=
  F.countP (fun f => decide (f = UpFrame.sub s))

/-- Number of upstream unsubscribe calls for a symbol in a call log. -/
def countUnsub (F : List UpFrame) (s : String) : Nat :=
  F.countP (fun f => decide (f = UpFrame.unsub s))

/-- The sub/unsub balance invariant tying the call log to the registry. -/
def FrameBalance (F : List UpFrame) (R : Registry) : Prop :=
  ∀ s : String, countSub F s =
    countUnsub F s + (if alookup R.subscriptions s = none then 0 else 1)

theorem countSub_append (F G : List UpFrame) (s : String) :
    countSub (F ++ G) s = countSub F s + countSub G s :=
  List.countP_append _ _ _

theorem countUnsub_append (F G : List UpFrame) (s : String) :
    countUnsub (F ++ G) s = countUnsub F s + countUnsub G s :=
  List.countP_append _ _ _

theorem countSub_sub_self (s : String) : countSub [UpFrame.sub s] s = 1 := by
  simp [countSub, List.countP_cons]

theorem countSub_sub_ne (s s' : String) (h : s' ≠ s) :
    countSub [UpFrame.sub s] s' = 0 := by
  simp [countSub, List.countP_cons, Ne.symm h]

theorem countSub_unsub (s s' : String) : countSub [UpFrame.unsub s] s' = 0 := by
  simp [countSub, List.countP_cons]

theorem countUnsub_unsub_self (s : String) : countUnsub [UpFrame.unsub s] s = 1 := by
  simp [countUnsub, List.countP_cons]

theorem countUnsub_unsub_ne (s s' : String) (h : s' ≠ s) :
    countUnsub [UpFrame.unsub s] s' = 0 := by
  simp [countUnsub, List.countP_cons, Ne.symm h]

theorem countUnsub_sub (s s' : String) : countUnsub [UpFrame.sub s] s' = 0 := by
  simp [countUnsub, List.countP_cons]

/-! #### Per-step effect of `handleSubscribe` -/

theorem handleSubscribe_subs (R : Registry) (c : Client) (s : String) (hs : s ≠ "") :
    (handleSubscribe R c s).1.subscriptions =
      aset R.subscriptions s (addU ((alookup R.subscriptions s).getD []) c) := by
  cases hlook : alookup R.subscriptions s with
  | none => simp [handleSubscribe, hs, hlook, alookup_aset_self, aset_aset]
  | some cs => simp [handleSubscribe, hs, hlook]

theorem handleSubscribe_frames (R : Registry) (c : Client) (s : String) (hs : s ≠ "") :
    (handleSubscribe R c s).2 =
      if alookup R.subscriptions s = none then [UpFrame.sub s] else [] := by
  cases hlook : alookup R.subscriptions s with
  | none => simp [handleSubscribe, hs, hlook]
  | some cs => simp [handleSubscribe, hs, hlook]

theorem handleSubscribe_empty (R : Registry) (c : Client) :
    handleSubscribe R c "" = (R, []) := by
  simp [handleSubscribe]

theorem handleSubscribe_ne (R : Registry) (hne : EntriesNonempty R) (c : Client)
    (s : String) : EntriesNonempty (handleSubscribe R c s).1 := by
  by_cases hs : s = ""
  · subst hs
    rw [handleSubscribe_empty]
    exact hne
  · intro p hp
    rw [handleSubscribe_subs R c s hs] at hp
    rcases mem_aset _ _ _ _ hp with h | h
    · rw [h]
      exact addU_ne_nil _ _
    · exact hne p h

/-! #### Per-step effect of `handleUnsubscribe` -/

theorem handleUnsubscribe_empty (R : Registry) (c : Client) :
    handleUnsubscribe R c "" = (R, []) := by
  simp [handleUnsubscribe]

theorem handleUnsubscribe_none (R : Registry) (c : Client) (s : String) (hs : s ≠ "")
    (hlook : alookup R.subscriptions s = none) :
    (handleUnsubscribe R c s).1.subscriptions = R.subscriptions ∧
    (handleUnsubscribe R c s).2 = [] := by
  constructor <;> simp [handleUnsubscribe, hs, hlook]

theorem handleUnsubscribe_drop (R : Registry) (c : Client) (s : String) (hs : s ≠ "")
    (cs : List Client) (hlook : alookup R.subscriptions s = some cs)
    (hdel : delU cs c = []) :
    (handleUnsubscribe R c s).1.subscriptions = adel R.subscriptions s ∧
    (handleUnsubscribe R c s).2 = [UpFrame.unsub s] := by
  constructor <;>
    simp [handleUnsubscribe, hs, hlook, hdel, alookup_aset_self, adel_aset]

theorem handleUnsubscribe_keep (R : Registry) (c : Client) (s : String) (hs : s ≠ "")
    (cs : List Client) (hlook : alookup R.subscriptions s = some cs)
    (hdel : delU cs c ≠ []) :
    (handleUnsubscribe R c s).1.subscriptions = aset R.subscriptions s (delU cs c) ∧
    (handleUnsubscribe R c s).2 = [] := by
  have hlen : ¬ (delU cs c).length = 0 := by
    simpa [List.length_eq_zero] using hdel
  constructor <;>
    simp [handleUnsubscribe, hs, hlook, alookup_aset_self, hlen]

theorem handleUnsubscribe_ne (R : Registry) (hne : EntriesNonempty R) (c : Client)
    (s : String) : EntriesNonempty (handleUnsubscribe R c s).1 := by
  by_cases hs : s = ""
  · subst hs
    rw [handleUnsubscribe_empty]
    exact hne
  · cases hlook : alookup R.subscriptions s with
    | none =>
      intro p hp
      rw [(handleUnsubscribe_none R c s hs hlook).1] at hp
      exact hne p hp
    | some cs =>
      by_cases hdel : delU cs c = []
      · intro p hp
        rw [(handleUnsubscribe_drop R c s hs cs hlook hdel).1] at hp
        exact hne p (mem_adel _ _ _ hp)
      · intro p hp
        rw [(handleUnsubscribe_keep R c s hs cs hlook hdel).1] at hp
        rcases mem_aset _ _ _ _ hp with h | h
        · rw [h]
          exact hdel
        · exact hne p h

/-! #### Per-step effect of the disconnect loop -/

theorem discStep_none (c : Client) (acc : List (String × List Client) × List UpFrame)
    (s : String) (hlook : alookup acc.1 s = none) : discStep c acc s = acc := by
  simp [discStep, hlook]

theorem discStep_drop (c : Client) (acc : List (String × List Client) × List UpFrame)
    (s : String) (cs : List Client) (hlook : alookup acc.1 s = some cs)
    (hdel : delU cs c = []) :
    discStep c acc s = (adel acc.1 s, acc.2 ++ [UpFrame.unsub s]) := by
  simp [discStep, hlook, hdel, alookup_aset_self, adel_aset]

theorem discStep_keep (c : Client) (acc : List (String × List Client) × List UpFrame)
    (s : String) (cs : List Client) (hlook : alookup acc.1 s = some cs)
    (hdel : delU cs c ≠ []) :
    discStep c acc s = (aset acc.1 s (delU cs c), acc.2) := by
  have hlen : ¬ (delU cs c).length = 0 := by
    simpa [List.length_eq_zero] using hdel
  simp [discStep, hlook, alookup_aset_self, hlen]

theorem discFold_spec (c : Client) (ss : List String) :
    ∀ (subs : List (String × List Client)) (F : List UpFrame),
      (∀ p ∈ subs, p.2 ≠ []) →
      (∀ p ∈ (ss.foldl (discStep c) (subs, F)).1, p.2 ≠ []) ∧
      (∀ s : String, countSub (ss.foldl (discStep c) (subs, F)).2 s = countSub F s) ∧
      (∀ s : String, s ∉ ss →
        alookup (ss.foldl (discStep c) (subs, F)).1 s = alookup subs s ∧
        countUnsub (ss.foldl (discStep c) (subs, F)).2 s = countUnsub F s) ∧
      (∀ s : String, s ∈ ss →
        (alookup subs s = none →
          alookup (ss.foldl (discStep c) (subs, F)).1 s = none ∧
          countUnsub (ss.foldl (discStep c) (subs, F)).2 s = countUnsub F s) ∧
        (∀ cs, alookup subs s = some cs →
          (delU cs c = [] →
            alookup (ss.foldl (discStep c) (subs, F)).1 s = none ∧
            countUnsub (ss.foldl (discStep c) (subs, F)).2 s = countUnsub F s + 1) ∧
          (delU cs c ≠ [] →
            alookup (ss.foldl (discStep c) (subs, F)).1 s = some (delU cs c) ∧
            countUnsub (ss.foldl (discStep c) (subs, F)).2 s = countUnsub F s))) := by
  induction ss with
  | nil =>
    intro subs F hne
    refine ⟨hne, fun s => rfl, fun s _ => ⟨rfl, rfl⟩, fun s hs => absurd hs (by simp)⟩
  | cons s0 rest ih =>
    intro subs F hne
    rw [List.foldl_cons]
    cases hlook : alookup subs s0 with
    | none =>
      rw [discStep_none c (subs, F) s0 hlook]
      obtain ⟨hNE, hCS, hOut, hIn⟩ := ih subs F hne
      refine ⟨hNE, hCS, ?_, ?_⟩
      · intro s hs
        exact hOut s (fun hc => hs (List.mem_cons_of_mem _ hc))
      · intro s hs
        by_cases hs0 : s = s0
        · subst hs0
          constructor
          · intro _
            by_cases hmem : s ∈ rest
            · exact (hIn s hmem).1 hlook
            · obtain ⟨h1, h2⟩ := hOut s hmem
              exact ⟨h1.trans hlook, h2⟩
          · intro cs hcs
            rw [hlook] at hcs
            cases hcs
        · have hmem : s ∈ rest := by
            rcases List.mem_cons.mp hs with h | h
            · exact absurd h hs0
            · exact h
          exact hIn s hmem
    | some cs =>
      by_cases hdel : delU cs c = []
      · rw [discStep_drop c (subs, F) s0 cs hlook hdel]
        have hne2 : ∀ p ∈ adel subs s0, p.2 ≠ [] :=
          fun p hp => hne p (mem_adel _ _ _ hp)
        obtain ⟨hNE, hCS, hOut, hIn⟩ := ih (adel subs s0) (F ++ [UpFrame.unsub s0]) hne2
        refine ⟨hNE, ?_, ?_, ?_⟩
        · intro s
          rw [hCS s, countSub_append, countSub_unsub, Nat.add_zero]
        · intro s hs
          have hs0 : s ≠ s0 := fun hc => hs (hc ▸ List.mem_cons_self _ _)
          have hmem : s ∉ rest := fun hc => hs (List.mem_cons_of_mem _ hc)
          obtain ⟨h1, h2⟩ := hOut s hmem
          refine ⟨h1.trans (alookup_adel_ne _ _ _ hs0), ?_⟩
          rw [h2, countUnsub_append, countUnsub_unsub_ne _ _ hs0, Nat.add_zero]
        · intro s hs
          by_cases hs0 : s = s0
          · subst hs0
            constructor
            · intro hc
              rw [hc] at hlook
              cases hlook
            · intro cs' hcs'
              rw [hlook] at hcs'
              obtain ⟨rfl⟩ := Option.some_injective _ hcs'.symm
              constructor
              · intro _
                have had : alookup (adel subs s) s = none := alookup_adel_self _ _
                by_cases hmem : s ∈ rest
                · obtain ⟨h1, h2⟩ := (hIn s hmem).1 had
                  refine ⟨h1, ?_⟩
                  rw [h2, countUnsub_append, countUnsub_unsub_self]
                · obtain ⟨h1, h2⟩ := hOut s hmem
                  refine ⟨h1.trans had, ?_⟩
                  rw [h2, countUnsub_append, countUnsub_unsub_self]
              · intro hcon
                exact absurd hdel hcon
          · have hmem : s ∈ rest := by
              rcases List.mem_cons.mp hs with h | h
              · exact absurd h hs0
              · exact h
            have hlk : alookup (adel subs s0) s = alookup subs s :=
              alookup_adel_ne _ _ _ hs0
            have hcnt : ∀ n : Nat, countUnsub (F ++ [UpFrame.unsub s0]) s = countUnsub F s := by
              intro _
              rw [countUnsub_append, countUnsub_unsub_ne _ _ hs0, Nat.add_zero]
            obtain ⟨g1, g2⟩ := hIn s hmem
            constructor
            · intro hcc
              obtain ⟨h1, h2⟩ := g1 (hlk.trans hcc)
              exact ⟨h1, by rw [h2, hcnt 0]⟩
            · intro cs' hcs'
              obtain ⟨k1, k2⟩ := g2 cs' (hlk.trans hcs')
              constructor
              · intro hd
                obtain ⟨h1, h2⟩ := k1 hd
                exact ⟨h1, by rw [h2, hcnt 0]⟩
              · intro hd
                obtain ⟨h1, h2⟩ := k2 hd
                exact ⟨h1, by rw [h2, hcnt 0]⟩
      · rw [discStep_keep c (subs, F) s0 cs hlook hdel]
        have hne2 : ∀ p ∈ aset subs s0 (delU cs c), p.2 ≠ [] := by
          intro p hp
          rcases mem_aset _ _ _ _ hp with h | h
          · rw [h]
            exact hdel
          · exact hne p h
        obtain ⟨hNE, hCS, hOut, hIn⟩ := ih (aset subs s0 (delU cs c)) F hne2
        refine ⟨hNE, hCS, ?_, ?_⟩
        · intro s hs
          have hs0 : s ≠ s0 := fun hc => hs (hc ▸ List.mem_cons_self _ _)
          have hmem : s ∉ rest := fun hc => hs (List.mem_cons_of_mem _ hc)
          obtain ⟨h1, h2⟩ := hOut s hmem
          exact ⟨h1.trans (alookup_aset_ne _ _ _ _ hs0), h2⟩
        · intro s hs
          by_cases hs0 : s = s0
          · subst hs0
            constructor
            · intro hc
              rw [hc] at hlook
              cases hlook
            · intro cs' hcs'
              rw [hlook] at hcs'
              obtain ⟨rfl⟩ := Option.some_injective _ hcs'.symm
              constructor
              · intro hcon
                exact absurd hcon hdel
              · intro _
                have hset : alookup (aset subs s (delU cs c)) s = some (delU cs c) :=
                  alookup_aset_self _ _ _
                by_cases hmem : s ∈ rest
                · obtain ⟨k1, k2⟩ := (hIn s hmem).2 (delU cs c) hset
                  have hidem : delU (delU cs c) c = delU cs c := delU_idem _ _
                  obtain ⟨h1, h2⟩ := k2 (by rw [hidem]; exact hdel)
                  rw [hidem] at h1
                  exact ⟨h1, h2⟩
                · obtain ⟨h1, h2⟩ := hOut s hmem
                  exact ⟨h1.trans hset, h2⟩
          · have hmem : s ∈ rest := by
              rcases List.mem_cons.mp hs with h | h
              · exact absurd h hs0
              · exact h
            have hlk : alookup (aset subs s0 (delU cs c)) s = alookup subs s :=
              alookup_aset_ne _ _ _ _ hs0
            obtain ⟨g1, g2⟩ := hIn s hmem
            constructor
            · intro hcc
              exact g1 (hlk.trans hcc)
            · intro cs' hcs'
              exact g2 cs' (hlk.trans hcs')

/-! #### Per-symbol effect of `handleClientDisconnect` -/

theorem countSub_nil (s : String) : countSub [] s = 0 := rfl

theorem countUnsub_nil (s : String) : countUnsub [] s = 0 := rfl

theorem symCount_ne_zero_iff (R : Registry) (s : String) (hne : EntriesNonempty R) :
    symCount R s ≠ 0 ↔ alookup R.subscriptions s ≠ none := by
  unfold symCount
  cases hlook : alookup R.subscriptions s with
  | none => simp
  | some cs =>
    have hcs : cs ≠ [] := hne (s, cs) (alookup_mem _ _ _ hlook)
    simp [List.length_eq_zero, hcs]

theorem disc_sym_spec (R : Registry) (c : Client) (hne : EntriesNonempty R) :
    EntriesNonempty (handleClientDisconnect R c).1 ∧
    ∀ s : String,
      countSub (handleClientDisconnect R c).2 s = 0 ∧
      ((countUnsub (handleClientDisconnect R c).2 s = 0 ∧
          alookup (handleClientDisconnect R c).1.subscriptions s =
            alookup R.subscriptions s) ∨
        (countUnsub (handleClientDisconnect R c).2 s = 0 ∧
          (∃ cs, alookup R.subscriptions s = some cs ∧ delU cs c ≠ [] ∧
            alookup (handleClientDisconnect R c).1.subscriptions s =
              some (delU cs c))) ∨
        (countUnsub (handleClientDisconnect R c).2 s = 1 ∧
          alookup R.subscriptions s ≠ none ∧
          alookup (handleClientDisconnect R c).1.subscriptions s = none)) := by
  cases hcl : alookup R.clientSubscriptions c with
  | none =>
    have h1 : (handleClientDisconnect R c).1.subscriptions = R.subscriptions := by
      simp [handleClientDisconnect, hcl]
    have h2 : (handleClientDisconnect R c).2 = [] := by
      simp [handleClientDisconnect, hcl]
    refine ⟨?_, ?_⟩
    · intro p hp
      rw [h1] at hp
      exact hne p hp
    · intro s
      rw [h1, h2]
      exact ⟨countSub_nil s, Or.inl ⟨countUnsub_nil s, rfl⟩⟩
  | some ss =>
    obtain ⟨hNE, hCS, hOut, hIn⟩ := discFold_spec c ss R.subscriptions [] hne
    have h1 : (handleClientDisconnect R c).1.subscriptions =
        (ss.foldl (discStep c) (R.subscriptions, [])).1 := by
      simp [handleClientDisconnect, hcl]
    have h2 : (handleClientDisconnect R c).2 =
        (ss.foldl (discStep c) (R.subscriptions, [])).2 := by
      simp [handleClientDisconnect, hcl]
    refine ⟨?_, ?_⟩
    · intro p hp
      rw [h1] at hp
      exact hNE p hp
    · intro s
      rw [h1, h2]
      refine ⟨(hCS s).trans (countSub_nil s), ?_⟩
      by_cases hmem : s ∈ ss
      · cases hlook : alookup R.subscriptions s with
        | none =>
          obtain ⟨g1, g2⟩ := (hIn s hmem).1 hlook
          exact Or.inl ⟨g2.trans (countUnsub_nil s), g1⟩
        | some cs =>
          by_cases hdel : delU cs c = []
          · obtain ⟨g1, g2⟩ := ((hIn s hmem).2 cs hlook).1 hdel
            refine Or.inr (Or.inr ⟨?_, ?_, g1⟩)
            · rw [g2, countUnsub_nil]
            · simp
          · obtain ⟨g1, g2⟩ := ((hIn s hmem).2 cs hlook).2 hdel
            exact Or.inr (Or.inl ⟨g2.trans (countUnsub_nil s),
              ⟨cs, rfl, hdel, g1⟩⟩)
      · obtain ⟨g1, g2⟩ := hOut s hmem
        exact Or.inl ⟨g2.trans (countUnsub_nil s), g1⟩

/-! #### Invariant preservation -/

theorem stepR_preserves (R : Registry) (F : List UpFrame) (e : REv)
    (hne : EntriesNonempty R) (hbal : FrameBalance F R) :
    EntriesNonempty (stepR R e).1 ∧
    FrameBalance (F ++ (stepR R e).2) (stepR R e).1 := by
  cases e with
  | connect c =>
    refine ⟨?_, ?_⟩
    · intro p hp
      exact hne p hp
    · intro s'
      simpa [stepR, connectClient] using hbal s'
  | sub c s =>
    by_cases hs : s = ""
    · subst hs
      refine ⟨?_, ?_⟩
      · simpa [stepR, handleSubscribe_empty] using hne
      · intro s'
        simpa [stepR, handleSubscribe_empty] using hbal s'
    · refine ⟨handleSubscribe_ne R hne c s, ?_⟩
      intro s'
      show countSub (F ++ (handleSubscribe R c s).2) s' =
        countUnsub (F ++ (handleSubscribe R c s).2) s' +
          (if alookup (handleSubscribe R c s).1.subscriptions s' = none then 0 else 1)
      rw [handleSubscribe_frames R c s hs, handleSubscribe_subs R c s hs]
      by_cases hss : s' = s
      · subst hss
        rw [alookup_aset_self]
        cases hlook : alookup R.subscriptions s' with
        | none =>
          have hb := hbal s'
          rw [if_pos hlook, Nat.add_zero] at hb
          simp [countSub_append, countUnsub_append, countSub_sub_self,
            countUnsub_sub, hb]
        | some cs =>
          have hb := hbal s'
          rw [if_neg (by simp [hlook])] at hb
          simp [countSub_append, countUnsub_append, countSub_nil,
            countUnsub_nil, hb]
      · rw [alookup_aset_ne _ _ _ _ hss]
        cases hlook : alookup R.subscriptions s with
        | none =>
          simp [countSub_append, countUnsub_append, countSub_sub_ne _ _ hss,
            countUnsub_sub, hbal s']
        | some cs =>
          simp [hbal s']
  | unsub c s =>
    by_cases hs : s = ""
    · subst hs
      refine ⟨?_, ?_⟩
      · simpa [stepR, handleUnsubscribe_empty] using hne
      · intro s'
        simpa [stepR, handleUnsubscribe_empty] using hbal s'
    · refine ⟨handleUnsubscribe_ne R hne c s, ?_⟩
      intro s'
      show countSub (F ++ (handleUnsubscribe R c s).2) s' =
        countUnsub (F ++ (handleUnsubscribe R c s).2) s' +
          (if alookup (handleUnsubscribe R c s).1.subscriptions s' = none then 0 else 1)
      cases hlook : alookup R.subscriptions s with
      | none =>
        obtain ⟨h1, h2⟩ := handleUnsubscribe_none R c s hs hlook
        rw [h1, h2, List.append_nil]
        exact hbal s'
      | some cs =>
        by_cases hdel : delU cs c = []
        · obtain ⟨h1, h2⟩ := handleUnsubscribe_drop R c s hs cs hlook hdel
          rw [h1, h2, countSub_append, countUnsub_append, countSub_unsub,
            Nat.add_zero]
          by_cases hss : s' = s
          · subst hss
            rw [countUnsub_unsub_self, if_pos (alookup_adel_self _ _)]
            have hb := hbal s'
            rw [if_neg (by simp [hlook])] at hb
            simp [hb]
          · rw [countUnsub_unsub_ne _ _ hss, Nat.add_zero,
              alookup_adel_ne _ _ _ hss]
            exact hbal s'
        · obtain ⟨h1, h2⟩ := handleUnsubscribe_keep R c s hs cs hlook hdel
          rw [h1, h2, List.append_nil]
          by_cases hss : s' = s
          · subst hss
            rw [alookup_aset_self]
            have hb := hbal s'
            rw [if_neg (by simp [hlook])] at hb
            simpa using hb
          · rw [alookup_aset_ne _ _ _ _ hss]
            exact hbal s'
  | disc c =>
    obtain ⟨hNE, hsym⟩ := disc_sym_spec R c hne
    refine ⟨hNE, ?_⟩
    intro s'
    obtain ⟨hcs, htri⟩ := hsym s'
    show countSub (F ++ (handleClientDisconnect R c).2) s' =
      countUnsub (F ++ (handleClientDisconnect R c).2) s' +
        (if alookup (handleClientDisconnect R c).1.subscriptions s' = none
          then 0 else 1)
    rw [countSub_append, countUnsub_append, hcs, Nat.add_zero]
    rcases htri with ⟨hcu, hlk⟩ | ⟨hcu, cs, hlook, hdel, hlk⟩ | ⟨hcu, hne', hlk⟩
    · rw [hcu, Nat.add_zero, hlk]
      exact hbal s'
    · rw [hcu, Nat.add_zero, hlk, if_neg (by simp)]
      have hb := hbal s'
      rw [if_neg (by simp [hlook])] at hb
      exact hb
    · rw [hcu, hlk, if_pos rfl, Nat.add_zero]
      have hb := hbal s'
      rw [if_neg hne'] at hb
      omega

theorem runR_inv_aux (evs : List REv) :
    ∀ (R : Registry) (F : List UpFrame), EntriesNonempty R → FrameBalance F R →
      EntriesNonempty
        (evs.foldl (fun acc e => ((stepR acc.1 e).1, acc.2 ++ (stepR acc.1 e).2))
          (R, F)).1 ∧
      FrameBalance
        (evs.foldl (fun acc e => ((stepR acc.1 e).1, acc.2 ++ (stepR acc.1 e).2))
          (R, F)).2
        (evs.foldl (fun acc e => ((stepR acc.1 e).1, acc.2 ++ (stepR acc.1 e).2))
          (R, F)).1 := by
  induction evs with
  | nil => intro R F h1 h2; exact ⟨h1, h2⟩
  | cons e rest ih =>
    intro R F h1 h2
    rw [List.foldl_cons]
    obtain ⟨g1, g2⟩ := stepR_preserves R F e h1 h2
    exact ih (stepR R e).1 (F ++ (stepR R e).2) g1 g2

theorem runR_inv (evs : List REv) :
    EntriesNonempty (runR evs).1 ∧ FrameBalance (runR evs).2 (runR evs).1 := by
  have h := runR_inv_aux evs emptyReg []
    (fun p hp => absurd hp (by simp [emptyReg]))
    (fun s => by simp [countSub_nil, countUnsub_nil, emptyReg, alookup])
  exact h

/-! #### The C6 theorem -/

theorem symCount_eq_zero_iff (R : Registry) (s : String) (hne : EntriesNonempty R) :
    symCount R s = 0 ↔ alookup R.subscriptions s = none :=
  not_iff_not.mp (by simpa using symCount_ne_zero_iff R s hne)

/-- The two-client scenario of the specification: both subscribe to
`ETHUSDT`, then disconnect one after the other. -/
def twoClientTrace : List REv :=
  [.connect 1, .connect 2, .sub 1 "ETHUSDT", .sub 2 "ETHUSDT"]

/-- C6: upstream subscribe calls happen only on the zero-to-nonzero
transition of a symbol's distinct-client count, upstream unsubscribe calls
exactly once per nonzero-to-zero transition, and the balance invariant
keeps at most one upstream subscription per symbol active concurrently
(`FrameBalance`: subscribe calls minus unsubscribe calls is 1 when the
symbol has an entry and 0 otherwise).  The two-client scenario: two clients
subscribing to `ETHUSDT` produce one SUBSCRIBE call; the first disconnect
produces nothing; the second produces exactly one UNSUBSCRIBE call. -/
theorem refcount_transitions :
    (∀ evs : List REv,
      EntriesNonempty (runR evs).1 ∧ FrameBalance (runR evs).2 (runR evs).1) ∧
    (∀ (R : Registry) (c : Client) (s : String), EntriesNonempty R → s ≠ "" →
      (stepR R (.sub c s)).2 =
        if symCount R s = 0 then [UpFrame.sub s] else []) ∧
    (∀ (R : Registry) (c : Client) (s : String), EntriesNonempty R →
      ((stepR R (.unsub c s)).2 = [] ∨
        (stepR R (.unsub c s)).2 = [UpFrame.unsub s]) ∧
      ((stepR R (.unsub c s)).2 = [UpFrame.unsub s] ↔
        symCount R s ≠ 0 ∧ symCount (stepR R (.unsub c s)).1 s = 0)) ∧
    (∀ (R : Registry) (c : Client), EntriesNonempty R → ∀ s : String,
      countUnsub (stepR R (.disc c)).2 s =
        if symCount R s ≠ 0 ∧ symCount (stepR R (.disc c)).1 s = 0
        then 1 else 0) ∧
    ((runR twoClientTrace).2 = [UpFrame.sub "ETHUSDT"] ∧
      (runR (twoClientTrace ++ [.disc 1])).2 = [UpFrame.sub "ETHUSDT"] ∧
      (runR (twoClientTrace ++ [.disc 1, .disc 2])).2 =
        [UpFrame.sub "ETHUSDT", UpFrame.unsub "ETHUSDT"]) := by
  refine ⟨runR_inv, ?_, ?_, ?_, by decide⟩
  · intro R c s hne hs
    show (handleSubscribe R c s).2 = _
    rw [handleSubscribe_frames R c s hs]
    by_cases h0 : symCount R s = 0
    · rw [if_pos ((symCount_eq_zero_iff R s hne).mp h0), if_pos h0]
    · rw [if_neg (fun hc => h0 ((symCount_eq_zero_iff R s hne).mpr hc)),
        if_neg h0]
  · intro R c s hne
    show ((handleUnsubscribe R c s).2 = [] ∨
        (handleUnsubscribe R c s).2 = [UpFrame.unsub s]) ∧
      ((handleUnsubscribe R c s).2 = [UpFrame.unsub s] ↔
        symCount R s ≠ 0 ∧ symCount (handleUnsubscribe R c s).1 s = 0)
    by_cases hs : s = ""
    · subst hs
      rw [handleUnsubscribe_empty]
      refine ⟨Or.inl rfl, ?_⟩
      constructor
      · intro hc
        cases hc
      · rintro ⟨hn, hz⟩
        exact absurd hz hn
    · cases hlook : alookup R.subscriptions s with
      | none =>
        obtain ⟨h1, h2⟩ := handleUnsubscribe_none R c s hs hlook
        rw [h2]
        refine ⟨Or.inl rfl, ?_⟩
        constructor
        · intro hc
          cases hc
        · rintro ⟨hn, _⟩
          refine absurd ?_ hn
          unfold symCount
          rw [hlook]
          rfl
      | some cs =>
        have hcs : cs ≠ [] := hne (s, cs) (alookup_mem _ _ _ hlook)
        by_cases hdel : delU cs c = []
        · obtain ⟨h1, h2⟩ := handleUnsubscribe_drop R c s hs cs hlook hdel
          rw [h2]
          refine ⟨Or.inr rfl, ?_⟩
          constructor
          · intro _
            constructor
            · unfold symCount
              rw [hlook]
              simpa [List.length_eq_zero] using hcs
            · unfold symCount
              rw [h1, alookup_adel_self]
              rfl
          · intro _
            rfl
        · obtain ⟨h1, h2⟩ := handleUnsubscribe_keep R c s hs cs hlook hdel
          rw [h2]
          refine ⟨Or.inl rfl, ?_⟩
          constructor
          · intro hc
            cases hc
          · rintro ⟨_, hz⟩
            unfold symCount at hz
            rw [h1, alookup_aset_self] at hz
            exact absurd hz (by simpa [List.length_eq_zero] using hdel)
  · intro R c hne s
    obtain ⟨hNE, hsym⟩ := disc_sym_spec R c hne
    obtain ⟨hcs, htri⟩ := hsym s
    show countUnsub (handleClientDisconnect R c).2 s = _
    rcases htri with ⟨hcu, hlk⟩ | ⟨hcu, cs, hlook, hdel, hlk⟩ | ⟨hcu, hne', hlk⟩
    · rw [hcu, if_neg]
      rintro ⟨hn, hz⟩
      unfold symCount at hz
      rw [show (stepR R (REv.disc c)).1 = (handleClientDisconnect R c).1 from rfl,
        hlk] at hz
      exact hn hz
    · rw [hcu, if_neg]
      rintro ⟨_, hz⟩
      unfold symCount at hz
      rw [show (stepR R (.disc c)).1 = (handleClientDisconnect R c).1 from rfl,
        hlk] at hz
      exact absurd hz (by simpa [List.length_eq_zero] using hdel)
    · rw [hcu, if_pos]
      constructor
      · exact (symCount_ne_zero_iff R s hne).mpr hne'
      · unfold symCount
        rw [show (stepR R (.disc c)).1 = (handleClientDisconnect R c).1 from rfl,
          hlk]
        rfl

/-- Witness for C6: the per-step subscribe rule applied at the fresh
registry. -/
theorem refcount_transitions_witness :
    EntriesNonempty emptyReg ∧ (("ETHUSDT" : String) ≠ "") ∧
    (stepR emptyReg (.sub 1 "ETHUSDT")).2 =
      (if symCount emptyReg "ETHUSDT" = 0 then [UpFrame.sub "ETHUSDT"] else []) :=
  ⟨by decide, by decide,
    refcount_transitions.2.1 emptyReg 1 "ETHUSDT" (by decide) (by decide)⟩

/-! ### C8: idempotent client removal -/

theorem handleClientDisconnect_clientSubs (R : Registry) (c : Client) :
    (handleClientDisconnect R c).1.clientSubscriptions = adel R.clientSubscriptions c := by
  rcases hcl : alookup R.clientSubscriptions c with _ | ss <;>
    simp [handleClientDisconnect, hcl]

/-- C8: calling the client-removal operation twice for the same client
produces exactly the same registry state (symbol-to-clients map and
client-to-symbols map) and the same upstream UNSUBSCRIBE calls as calling
it once — the second call changes nothing and sends nothing. -/
theorem removeClient_idempotent (R : Registry) (c : Client) :
    handleClientDisconnect (handleClientDisconnect R c).1 c =
      ((handleClientDisconnect R c).1, []) := by
  have hcl := handleClientDisconnect_clientSubs R c
  have hnone : alookup (handleClientDisconnect R c).1.clientSubscriptions c = none := by
    rw [hcl]
    exact alookup_adel_self _ _
  have hdel : adel (handleClientDisconnect R c).1.clientSubscriptions c =
      (handleClientDisconnect R c).1.clientSubscriptions := by
    rw [hcl, adel_idem]
  rw [handleClientDisconnect, hnone, hdel]

/-! ### C9: symbol keys are case-sensitive -/

/-- Two clients subscribing to the same market symbol in different letter
cases. -/
def caseTrace : List REv :=
  [.connect 1, .connect 2, .sub 1 "ETHUSDT", .sub 2 "ethusdt"]

/-- C9 counterexample: the registry does NOT key symbols on a canonical
case-normalized form — two clients subscribing to the same symbol in
different letter cases (same uppercase form) get two separate map entries
and trigger two upstream subscribe calls instead of sharing one
reference-counted entry. -/
theorem case_sensitive_counterexample :
    (runR caseTrace).2 = [UpFrame.sub "ETHUSDT", UpFrame.sub "ethusdt"] ∧
    alookup (runR caseTrace).1.subscriptions "ETHUSDT" = some [1] ∧
    alookup (runR caseTrace).1.subscriptions "ethusdt" = some [2] ∧
    ("ETHUSDT" : String).data.map Char.toUpper =
      ("ethusdt" : String).data.map Char.toUpper := by
  decide

/-- C9 amended: the subscription maps key on the raw, case-sensitive symbol
string exactly as the client sent it; two non-equal spellings (even of the
same case-normalized symbol) create two separate reference-counted entries
and each triggers its own upstream subscribe call (only the stream names
inside the connector's control-frame params are lowercased). -/
theorem case_sensitive_keys_amended (R : Registry) (c1 c2 : Client) (s1 s2 : String)
    (h1 : s1 ≠ "") (h2 : s2 ≠ "") (hne12 : s2 ≠ s1)
    (hl1 : alookup R.subscriptions s1 = none)
    (hl2 : alookup R.subscriptions s2 = none) :
    (handleSubscribe R c1 s1).2 = [UpFrame.sub s1] ∧
    (handleSubscribe (handleSubscribe R c1 s1).1 c2 s2).2 = [UpFrame.sub s2] ∧
    alookup (handleSubscribe (handleSubscribe R c1 s1).1 c2 s2).1.subscriptions s1 =
      some [c1] ∧
    alookup (handleSubscribe (handleSubscribe R c1 s1).1 c2 s2).1.subscriptions s2 =
      some [c2] := by
  have hsubs1 : (handleSubscribe R c1 s1).1.subscriptions =
      aset (aset R.subscriptions s1 []) s1 [c1] := by
    simp [handleSubscribe, h1, hl1, alookup_aset_self, addU]
  have hfr1 : (handleSubscribe R c1 s1).2 = [UpFrame.sub s1] := by
    simp [handleSubscribe, h1, hl1]
  have hlook1 : alookup (handleSubscribe R c1 s1).1.subscriptions s1 = some [c1] := by
    rw [hsubs1]
    exact alookup_aset_self _ _ _
  have hlook2 : alookup (handleSubscribe R c1 s1).1.subscriptions s2 = none := by
    rw [hsubs1, alookup_aset_ne _ _ _ _ hne12, alookup_aset_ne _ _ _ _ hne12]
    exact hl2
  refine ⟨hfr1, ?_⟩
  generalize hg : (handleSubscribe R c1 s1).1 = R1 at hlook1 hlook2 ⊢
  have hsubs2 : (handleSubscribe R1 c2 s2).1.subscriptions =
      aset (aset R1.subscriptions s2 []) s2 [c2] := by
    simp [handleSubscribe, h2, hlook2, alookup_aset_self, addU]
  have hfr2 : (handleSubscribe R1 c2 s2).2 = [UpFrame.sub s2] := by
    simp [handleSubscribe, h2, hlook2]
  refine ⟨hfr2, ?_, ?_⟩
  · rw [hsubs2, alookup_aset_ne _ _ _ _ (Ne.symm hne12),
      alookup_aset_ne _ _ _ _ (Ne.symm hne12)]
    exact hlook1
  · rw [hsubs2]
    exact alookup_aset_self _ _ _

/-- Witness for the amended C9 statement: `ETHUSDT` and `ethusdt` from the
fresh registry. -/
theorem case_sensitive_keys_amended_witness :
    (("ETHUSDT" : String) ≠ "") ∧ (("ethusdt" : String) ≠ "") ∧
    (("ethusdt" : String) ≠ "ETHUSDT") ∧
    alookup emptyReg.subscriptions "ETHUSDT" = none ∧
    alookup emptyReg.subscriptions "ethusdt" = none ∧
    ((handleSubscribe emptyReg 1 "ETHUSDT").2 = [UpFrame.sub "ETHUSDT"] ∧
      (handleSubscribe (handleSubscribe emptyReg 1 "ETHUSDT").1 2 "ethusdt").2 =
        [UpFrame.sub "ethusdt"] ∧
      alookup (handleSubscribe (handleSubscribe emptyReg 1 "ETHUSDT").1
        2 "ethusdt").1.subscriptions "ETHUSDT" = some [1] ∧
      alookup (handleSubscribe (handleSubscribe emptyReg 1 "ETHUSDT").1
        2 "ethusdt").1.subscriptions "ethusdt" = some [2]) :=
  ⟨by decide, by decide, by decide, rfl, rfl,
    case_sensitive_keys_amended emptyReg 1 2 "ETHUSDT" "ethusdt"
      (by decide) (by decide) (by decide) rfl rfl⟩

/-! ### C10: unsubscribe frame conditions -/

/-- C10: an unsubscribe for a symbol with no subscription entry, or one the
issuing client never subscribed to, leaves the symbol-to-clients map and
every other client's symbol set unchanged and makes no upstream unsubscribe
call.  The nonempty-entries hypothesis is the reachable-state invariant
established separately. -/
theorem unsubscribe_frame_rule (R : Registry) (c : Client) (s : String)
    (hne : EntriesNonempty R)
    (h : alookup R.subscriptions s = none ∨
      ∀ cs, alookup R.subscriptions s = some cs → c ∉ cs) :
    (handleUnsubscribe R c s).1.subscriptions = R.subscriptions ∧
    (∀ c', c' ≠ c →
      alookup (handleUnsubscribe R c s).1.clientSubscriptions c' =
        alookup R.clientSubscriptions c') ∧
    (handleUnsubscribe R c s).2 = [] := by
  by_cases hs : s = ""
  · refine ⟨?_, ?_, ?_⟩ <;> simp [handleUnsubscribe, hs]
  · cases hlook : alookup R.subscriptions s with
    | none =>
      refine ⟨?_, ?_, ?_⟩
      · simp [handleUnsubscribe, hs, hlook]
      · intro c' hc'
        cases hcl : alookup R.clientSubscriptions c with
        | none => simp [handleUnsubscribe, hs, hlook, hcl]
        | some ss =>
          simp [handleUnsubscribe, hs, hlook, hcl, alookup_aset_ne _ _ _ _ hc']
      · simp [handleUnsubscribe, hs, hlook]
    | some cs =>
      have hcne : cs ≠ [] := hne (s, cs) (alookup_mem _ _ _ hlook)
      have hcm : c ∉ cs := by
        rcases h with h | h
        · rw [h] at hlook
          cases hlook
        · exact h cs hlook
      have hdel : delU cs c = cs := delU_not_mem cs c hcm
      have hset : aset R.subscriptions s cs = R.subscriptions :=
        aset_lookup_self _ _ _ hlook
      have hlen : ¬ cs.length = 0 := by
        simpa [List.length_eq_zero] using hcne
      refine ⟨?_, ?_, ?_⟩
      · simp [handleUnsubscribe, hs, hlook, hdel, hset, hlen]
      · intro c' hc'
        cases hcl : alookup R.clientSubscriptions c with
        | none => simp [handleUnsubscribe, hs, hlook, hdel, hset, hlen, hcl]
        | some ss =>
          simp [handleUnsubscribe, hs, hlook, hdel, hset, hlen, hcl,
            alookup_aset_ne _ _ _ _ hc']
      · simp [handleUnsubscribe, hs, hlook, hdel, hset, hlen]

/-- A small registry used to witness C10: client 1 holds `BTCUSDT`, client
2 holds nothing. -/
def regW : Registry :=
  { subscriptions := [("BTCUSDT", [1])]
    clientSubscriptions := [(1, ["BTCUSDT"]), (2, [])] }

/-- Witness for C10: client 2 unsubscribes a symbol with no entry. -/
theorem unsubscribe_frame_rule_witness :
    EntriesNonempty regW ∧
    (alookup regW.subscriptions "ETHUSDT" = none ∨
      ∀ cs, alookup regW.subscriptions "ETHUSDT" = some cs → 2 ∉ cs) ∧
    ((handleUnsubscribe regW 2 "ETHUSDT").1.subscriptions = regW.subscriptions ∧
      (∀ c', c' ≠ 2 →
        alookup (handleUnsubscribe regW 2 "ETHUSDT").1.clientSubscriptions c' =
          alookup regW.clientSubscriptions c') ∧
      (handleUnsubscribe regW 2 "ETHUSDT").2 = []) :=
  ⟨by decide, Or.inl (by decide),
    unsubscribe_frame_rule regW 2 "ETHUSDT" (by decide) (Or.inl (by decide))⟩


end Aria
